import Mathlib

/-!
# Timed Assessment Attempt Engine — shallow embedding

A shallow embedding of the aptitude-attempt subsystem of the
Placement-Preparation-System repository, centred on
`app/application/services/aptitude_attempt_service.py` and
`app/infrastructure/repositories/aptitude_attempt_repo_impl.py`.

Modelling conventions:
* Python dicts become association lists (`List (String × α)`); insertion keeps
  the position of an existing key, as CPython dicts do.
* Machine clock values (`datetime.utcnow()`, `started_at`) are integer seconds;
  `int((now - started_at).total_seconds())` becomes integer subtraction.
* `random.shuffle` outcomes are passed in explicitly as permutation arguments.
* Python float arithmetic on scores is modelled with exact rationals (`ℚ`);
  `round(x, 1)` is round-half-to-even at one decimal, as in Python.
* Fallible operations return `Except String`, with the exact `ValueError`
  message strings of the source.
-/

namespace PPS

/-- Python truthiness of an optional string (`if selected:`):
`None` and `""` are falsy. -/
def strTruthy : Option String → Bool
  | none => false
  | some s => s ≠ ""

/-- Python `x or default` for an optional integer: `None` and `0` give the
default. -/
def pyOrInt (x : Option Int) (d : Int) : Int :=
  match x with
  | none => d
  | some v => if v = 0 then d else v

/-- Python `str(x)` on an optional string (`str(None) = "None"`). -/
def pyStr : Option String → String
  | some s => s
  | none => "None"

/-- Python `s.upper()` (ASCII option keys only appear here), character-wise. -/
def pyUpper (s : String) : String := String.mk (s.toList.map Char.toUpper)

/-- Fuel-driven replacement of all leftmost non-overlapping occurrences of
`pat` (Python `str.replace` semantics); `fuel` bounds the scan length. -/
def replaceGo (pat rep : List Char) : Nat → List Char → List Char
  | 0, s => s
  | _ + 1, [] => []
  | fuel + 1, c :: rest =>
    if pat ≠ [] && pat.isPrefixOf (c :: rest) then
      rep ++ replaceGo pat rep fuel ((c :: rest).drop pat.length)
    else c :: replaceGo pat rep fuel rest

/-- Python `s.replace(pat, rep)` for nonempty patterns. -/
def pyReplace (s pat rep : String) : String :=
  String.mk (replaceGo pat.toList rep.toList s.toList.length s.toList)

/-- Python `max(l, default=0)`. -/
def pyMaxD0 (l : List Int) : Int :=
  match l with
  | [] => 0
  | x :: xs => xs.foldl max x

/-- Association-list lookup, modelling Python `d.get(k)` / `d[k]`. -/
def dictGet (d : List (String × α)) (k : String) : Option α :=
  (d.find? (fun p => p.1 == k)).map (·.2)

/-- Membership test, modelling Python `k in d`. -/
def dictMem (d : List (String × α)) (k : String) : Bool :=
  d.any (fun p => p.1 == k)

/-- Python `d[k] = v`: replaces in place if the key exists, appends otherwise
(CPython dicts keep the original key position on update). -/
def dictInsert (d : List (String × α)) (k : String) (v : α) : List (String × α) :=
  if dictMem d k then d.map (fun p => if p.1 == k then (k, v) else p)
  else d ++ [(k, v)]

/-- Python truthiness of an optional list (`if attempt.question_ids:`):
`None` and `[]` are falsy. -/
def listTruthy : Option (List α) → Bool
  | none => false
  | some l => !l.isEmpty

/-- Python truthiness of an optional dict (`if attempt.generated_questions:`). -/
def optDictTruthy : Option (List (String × α)) → Bool
  | none => false
  | some l => !l.isEmpty

/-- `x or {}` on an optional dict. -/
def orEmptyDict : Option (List (String × α)) → List (String × α)
  | none => []
  | some l => l

/-! ## Python `uuid.UUID(str)` parsing, used by `_is_uuid` -/

/-- Strip leading and trailing `{` / `}` characters (`hex.strip('{}')`). -/
def stripBraces (s : String) : String :=
  let dropSet : Char → Bool := fun c => c = '\x7b' || c = '\x7d'
  String.mk (((s.toList.dropWhile dropSet).reverse.dropWhile dropSet).reverse)

/-- The normalisation the CPython `uuid.UUID` constructor applies to its
argument: drop `urn:` and `uuid:` markers, strip surrounding braces, drop
hyphens. -/
def uuidNormalize (s : String) : String :=
  pyReplace (stripBraces (pyReplace (pyReplace s "urn:" "") "uuid:" "")) "-" ""

/-- `AptitudeAttemptService._is_uuid`: `UUID(str(value))` succeeds iff the
normalised text is exactly 32 hex digits. -/
def is_uuid (s : String) : Bool :=
  let h := uuidNormalize s
  h.length = 32 && h.toList.all (fun c => c.isDigit || ('a' ≤ c && c ≤ 'f') || ('A' ≤ c && c ≤ 'F'))

/-! ## Python `round(x, 1)` (banker's rounding), on exact rationals -/

/-- Round-half-to-even of a rational to an integer. -/
def roundHalfEven (x : ℚ) : ℤ :=
  let n : ℤ := ⌊x⌋
  let frac : ℚ := x - n
  if frac > 1/2 then n + 1
  else if frac < 1/2 then n
  else if n % 2 = 0 then n else n + 1

/-- Python `round(x, 1)`: one decimal digit, ties to even. -/
def pyRound1 (x : ℚ) : ℚ :=
  (roundHalfEven (x * 10) : ℚ) / 10

/-! ## Data model (`app/infrastructure/database/models.py`, `app/core/constants.py`) -/

/-- `AptitudeMode` from `app/core/constants.py`. -/
inductive AptitudeMode
  | PRACTICE
  | TEST
  | RESUME_ONLY
deriving DecidableEq, Repr

/-- The `.value` string of each mode member. -/
def AptitudeMode.value : AptitudeMode → String
  | .PRACTICE => "PRACTICE"
  | .TEST => "TEST"
  | .RESUME_ONLY => "RESUME_ONLY"

/-- `AttemptStatus` from `app/core/constants.py`. -/
inductive AttemptStatus
  | IN_PROGRESS
  | COMPLETED
deriving DecidableEq, Repr

/-- A bank question row (`AptitudeQuestion` model): `marks` is a non-null
integer column (default 1), `time_limit_seconds` is nullable. Option maps are
insertion-ordered association lists. -/
structure AptitudeQuestion where
  id : String
  question_text : String
  options : List (String × String)
  correct_option : String
  category : String
  difficulty : String
  sub_topic : Option String
  marks : Int
  time_limit_seconds : Option Int
deriving DecidableEq, Repr

/-- A generated-question payload embedded in an attempt
(`attempt.generated_questions[gen_id]`). Fields read through `.get(...)` in the
source are optional; `options` is always present on every construction path
(AI validation and the fallback table both set it) and is indexed directly as
`gen["options"]` by the resume path. -/
structure GeneratedQuestion where
  question_text : Option String
  options : List (String × String)
  correct_option : Option String
  category : Option String
  difficulty : Option String
  marks : Option Int
  time_limit_seconds : Option Int
deriving DecidableEq, Repr

/-- A JSON answer-dict value stored in `attempt.answers[qid]`. Before
submission the autosave path writes `selected` / `saved_at`; at submission the
results map also carries `is_correct`, `correct_option`, `category`, `marks`.
Absent keys are `none`. -/
structure AnswerDict where
  selected : Option String := none
  saved_at : Option Int := none
  is_correct : Option Bool := none
  correct_option : Option String := none
  category : Option String := none
  marks : Option Int := none
deriving DecidableEq, Repr

/-- A value of the JSON `answers` column: either a dict payload or a legacy
raw selected-option value (the non-dict branch of
`_normalize_saved_answers`). -/
inductive StoredAnswer
  | dict (d : AnswerDict)
  | raw (v : Option String)
deriving DecidableEq, Repr

/-- `AptitudeAttempt` row. Timestamps are integer seconds. -/
structure AptitudeAttempt where
  id : String
  user_id : String
  category : Option String
  difficulty : Option String
  mode : AptitudeMode
  status : AttemptStatus
  total_questions : Int
  correct_answers : Int
  wrong_answers : Int
  skipped : Int
  score : ℚ
  time_taken_seconds : Int
  answers : Option (List (String × StoredAnswer))
  question_ids : Option (List String)
  option_orders : Option (List (String × List String))
  generated_questions : Option (List (String × GeneratedQuestion))
  started_at : Int
  completed_at : Option Int
deriving DecidableEq, Repr

/-- `AptitudeAttemptDetail` row, with the fields set by the constructor call
in `submit_assessment`. -/
structure AptitudeAttemptDetail where
  attempt_id : String
  question_id : Option String
  question_text : Option String
  options : List (String × String)
  generated : Bool
  selected_option : Option String
  correct_option : Option String
  is_correct : Bool
  marks : Int
  category : String
deriving DecidableEq, Repr

/-- The persistent store visible to the attempt engine: the attempts table,
the question bank and the attempt-detail table. -/
structure DBState where
  attempts : List AptitudeAttempt
  questions : List AptitudeQuestion
  details : List AptitudeAttemptDetail
deriving DecidableEq, Repr

/-! ## Repository layer (`aptitude_attempt_repo_impl.py`,
`aptitude_question_repo_impl.py`) -/

namespace AptitudeQuestionRepositoryImpl

/-- `AptitudeQuestionRepositoryImpl.get_by_id`: select by primary key. -/
def get_by_id (db : DBState) (question_id : String) : Option AptitudeQuestion :=
  db.questions.find? (fun q => q.id == question_id)

end AptitudeQuestionRepositoryImpl

namespace AptitudeAttemptRepositoryImpl

/-- `AptitudeAttemptRepositoryImpl.get_by_id`: select by primary key. -/
def get_by_id (db : DBState) (attempt_id : String) : Option AptitudeAttempt :=
  db.attempts.find? (fun a => a.id == attempt_id)

/-- `AptitudeAttemptRepositoryImpl.get_active_attempt`: the attempt of the
user with `completed_at IS NULL` and status `IN_PROGRESS` having the latest
`started_at` (`ORDER BY started_at DESC LIMIT 1`). -/
def get_active_attempt (db : DBState) (user_id : String) : Option AptitudeAttempt :=
  (db.attempts.filter (fun a =>
      a.user_id == user_id && a.completed_at == none
        && a.status == AttemptStatus.IN_PROGRESS)).foldl
    (fun acc a =>
      match acc with
      | none => some a
      | some b => if a.started_at > b.started_at then some a else some b)
    none

/-- `AptitudeAttemptRepositoryImpl.create`: unconditionally inserts a fresh
attempt row with the given fields; `started_at or datetime.utcnow()` is the
`now` argument here, the generated primary key is `new_id`. Nothing is read or
checked before the insert. -/
def create (db : DBState) (new_id : String) (user_id : String)
    (total_questions : Int) (category : Option String) (difficulty : Option String)
    (mode : AptitudeMode) (status : AttemptStatus)
    (question_ids : Option (List String))
    (option_orders : Option (List (String × List String)))
    (generated_questions : Option (List (String × GeneratedQuestion)))
    (now : Int) : DBState × AptitudeAttempt :=
  let attempt : AptitudeAttempt :=
    { id := new_id
      user_id := user_id
      category := category
      difficulty := difficulty
      mode := mode
      status := status
      total_questions := total_questions
      correct_answers := 0
      wrong_answers := 0
      skipped := 0
      score := 0
      time_taken_seconds := 0
      answers := some []
      question_ids := question_ids
      option_orders := option_orders
      generated_questions := generated_questions
      started_at := now
      completed_at := none }
  ({ db with attempts := db.attempts ++ [attempt] }, attempt)

/-- `AptitudeAttemptRepositoryImpl.update`: find the row, set the supplied
fields (`f` applies exactly the keyword arguments of the call site), commit.
Returns `none` when the row does not exist. -/
def update (db : DBState) (attempt_id : String)
    (f : AptitudeAttempt → AptitudeAttempt) : DBState × Option AptitudeAttempt :=
  match db.attempts.find? (fun a => a.id == attempt_id) with
  | none => (db, none)
  | some old =>
    let updated := f old
    ({ db with attempts := db.attempts.map (fun a => if a.id == attempt_id then updated else a) },
     some updated)

end AptitudeAttemptRepositoryImpl

/-! ## Service layer (`aptitude_attempt_service.py`) -/

namespace AptitudeAttemptService

/-- `DEFAULT_QUESTION_TIME_LIMIT_SECONDS`. -/
def DEFAULT_QUESTION_TIME_LIMIT_SECONDS : Int := 60

/-- The question brief dict built by `_build_question_brief` /
`_build_generated_brief`. -/
structure QuestionBrief where
  id : String
  question_text : Option String
  options : List (String × String)
  category : String
  difficulty : String
  sub_topic : Option String
  marks : Int
  time_limit_seconds : Option Int
deriving DecidableEq, Repr

/-- `_mode_value`: the mode's `.value` (the `isinstance` branch; modes in this
model are always enum members). -/
def mode_value (mode : AptitudeMode) : String := mode.value

/-- `_is_timed_mode`: TEST and RESUME_ONLY are timed. -/
def is_timed_mode (mode : AptitudeMode) : Bool :=
  mode_value mode == AptitudeMode.TEST.value
    || mode_value mode == AptitudeMode.RESUME_ONLY.value

/-- `_effective_time_limit`: a missing raw limit becomes the 60-second default
in timed modes; otherwise the raw limit passes through unchanged. -/
def effective_time_limit (raw_limit : Option Int) (timed : Bool) : Option Int :=
  if raw_limit = none && timed then some DEFAULT_QUESTION_TIME_LIMIT_SECONDS
  else raw_limit

/-- `_shuffle_options`: `random.shuffle` over the canonical keys is supplied
as the `shuffled_keys` argument; the display dict is rebuilt in that key
order. Returns the display dict and the frozen key order. -/
def shuffle_options (options : List (String × String)) (shuffled_keys : List String) :
    List (String × String) × List String :=
  (shuffled_keys.filterMap (fun k => (dictGet options k).map (fun v => (k, v))), shuffled_keys)

/-- `_apply_option_order`: rebuild the display dict from a stored key order,
skipping keys no longer present; a falsy (`None`/empty) order returns the
canonical dict unchanged. -/
def apply_option_order (options : List (String × String)) (order : Option (List String)) :
    List (String × String) :=
  match order with
  | none => options
  | some ord =>
    if ord.isEmpty then options
    else ord.filterMap (fun k => (dictGet options k).map (fun v => (k, v)))

/-- The `{selected, saved_at}` shape produced by `_normalize_saved_answers`. -/
structure NormalizedAnswer where
  selected : Option String
  saved_at : Option Int
deriving DecidableEq, Repr

/-- `_normalize_saved_answers`: dict values keep their `selected` / `saved_at`
keys; legacy raw values become `{selected: val, saved_at: None}`. -/
def normalize_saved_answers (answers : Option (List (String × StoredAnswer))) :
    List (String × NormalizedAnswer) :=
  (orEmptyDict answers).map (fun p =>
    match p.2 with
    | .dict d => (p.1, { selected := d.selected, saved_at := d.saved_at })
    | .raw v => (p.1, { selected := v, saved_at := none }))

/-- `_get_question_safe`: bank lookup guarded by `_is_uuid`. -/
def get_question_safe (db : DBState) (qid : String) : Option AptitudeQuestion :=
  if ¬ is_uuid qid then none
  else AptitudeQuestionRepositoryImpl.get_by_id db qid

/-- The value `int(limit or 0)` computed for one question id by the loop body
of `_build_question_time_limits`: the raw limit comes from the generated
payload if the id is a generated one, otherwise from the bank row when the id
parses as a UUID and resolves; in timed modes the raw limit passes through
`_effective_time_limit`. -/
def question_limit (db : DBState) (attempt : AptitudeAttempt) (qid : String) : Int :=
  let timed := is_timed_mode attempt.mode
  let limit : Option Int :=
    if optDictTruthy attempt.generated_questions
        && dictMem (orEmptyDict attempt.generated_questions) qid then
      (dictGet (orEmptyDict attempt.generated_questions) qid).bind
        (fun g => g.time_limit_seconds)
    else
      match (if is_uuid qid then AptitudeQuestionRepositoryImpl.get_by_id db qid else none) with
      | some question => question.time_limit_seconds
      | none => none
  let limit := if timed then effective_time_limit limit timed else limit
  limit.getD 0

/-- `_build_question_time_limits`: per-question raw limit (generated payload
first, then bank lookup), pushed through `_effective_time_limit` in timed
modes, then `int(limit or 0)`. -/
def build_question_time_limits (db : DBState) (attempt : AptitudeAttempt) :
    List (String × Int) :=
  if ¬ listTruthy attempt.question_ids then []
  else
    (attempt.question_ids.getD []).foldl
      (fun limits qid => dictInsert limits qid (question_limit db attempt qid))
      []

/-- `_build_question_deadlines`: running sum of the positive per-question
limits in attempt order; a question whose limit is `<= 0` gets deadline `None`
and leaves the running sum unchanged. -/
def build_question_deadlines (db : DBState) (attempt : AptitudeAttempt) :
    List (String × Option Int) :=
  if ¬ listTruthy attempt.question_ids then []
  else
    let limits := build_question_time_limits db attempt
    ((attempt.question_ids.getD []).foldl
      (fun acc qid =>
        let limit := (dictGet limits qid).getD 0
        if limit ≤ 0 then (dictInsert acc.1 qid none, acc.2)
        else (dictInsert acc.1 qid (some (acc.2 + limit)), acc.2 + limit))
      (([] : List (String × Option Int)), (0 : Int))).1

/-- The expiry threshold `max([d for d in deadlines.values() if d], default=0)`
(the comprehension keeps truthy values only: present and nonzero). -/
def total_allowed (deadlines : List (String × Option Int)) : Int :=
  pyMaxD0 (deadlines.filterMap (fun p =>
    match p.2 with
    | some d => if d ≠ 0 then some d else none
    | none => none))

/-- The shared late-answer guard `if deadline and t > deadline`: true iff the
question has a truthy (present, nonzero) deadline that `t` exceeds. Used by
`autosave_answers` on the current elapsed time and by `submit_assessment` on
each stored `saved_at`. -/
def past_deadline (deadlines : List (String × Option Int)) (qid : String)
    (t : Int) : Bool :=
  match (dictGet deadlines qid).bind id with
  | some d => d ≠ 0 && t > d
  | none => false

/-- `_build_question_brief`. -/
def build_question_brief (q : AptitudeQuestion) (options : List (String × String))
    (time_limit_seconds : Option Int := none) : QuestionBrief :=
  { id := q.id
    question_text := some q.question_text
    options := options
    category := q.category
    difficulty := q.difficulty
    sub_topic := q.sub_topic
    marks := q.marks
    time_limit_seconds :=
      match time_limit_seconds with
      | some t => some t
      | none => q.time_limit_seconds }

/-- `_build_generated_brief` (`.get` defaults and `or` fallbacks as in the
source: `category` defaults to `"RESUME"`, a falsy `difficulty` becomes
`MEDIUM`, falsy `marks` becomes 1). -/
def build_generated_brief (qid : String) (qdata : GeneratedQuestion)
    (options : List (String × String))
    (time_limit_seconds : Option Int := none) : QuestionBrief :=
  { id := qid
    question_text := qdata.question_text
    options := options
    category := qdata.category.getD "RESUME"
    difficulty :=
      match qdata.difficulty with
      | some d => if d = "" then "MEDIUM" else d
      | none => "MEDIUM"
    sub_topic := none
    marks := pyOrInt qdata.marks 1
    time_limit_seconds :=
      match time_limit_seconds with
      | some t => some t
      | none => qdata.time_limit_seconds }

/-- Python truthiness of an optional int (`if resume_request and ...`). -/
def intOptTruthy : Option Int → Bool
  | none => false
  | some v => v ≠ 0

/-- The loop body of `autosave_answers`: skip an incoming answer past its
question's deadline, otherwise write it over the current payload (non-dict
legacy values reset to an empty dict) stamped with the elapsed seconds. -/
def autosave_step (deadlines : List (String × Option Int)) (elapsed : Int)
    (existing : List (String × StoredAnswer)) (p : String × Option String) :
    List (String × StoredAnswer) :=
  if past_deadline deadlines p.1 elapsed then existing
  else
    let current : AnswerDict :=
      match dictGet existing p.1 with
      | some (StoredAnswer.dict d) => d
      | _ => {}
    dictInsert existing p.1
      (.dict { current with selected := p.2, saved_at := some elapsed })

/-- `autosave_answers` (lines 814–848): ownership and lifecycle checks, the
session-expiry check against the maximum truthy deadline, then a merge of the
incoming partial answer map that silently skips answers past their question's
deadline and stamps every stored answer with the server-measured elapsed
seconds. Returns the updated store and the operation outcome. -/
def autosave_answers (now : Int) (db : DBState) (attempt_id : String)
    (user_id : String) (user_answers : List (String × Option String)) :
    DBState × Except String Bool :=
  match AptitudeAttemptRepositoryImpl.get_by_id db attempt_id with
  | none => (db, .error "Attempt not found")
  | some attempt =>
    if attempt.user_id ≠ user_id then (db, .error "Attempt not found")
    else if attempt.completed_at ≠ none then (db, .error "Assessment already submitted")
    else
      let elapsed := now - attempt.started_at
      let deadlines : List (String × Option Int) :=
        if is_timed_mode attempt.mode && listTruthy attempt.question_ids then
          build_question_deadlines db attempt
        else []
      let expired : Bool :=
        if is_timed_mode attempt.mode && listTruthy attempt.question_ids then
          total_allowed deadlines > 0 && elapsed > total_allowed deadlines
        else false
      if expired then (db, .error "Session expired")
      else
        let existing :=
          user_answers.foldl (autosave_step deadlines elapsed)
            (orEmptyDict attempt.answers)
        let (db2, _) :=
          AptitudeAttemptRepositoryImpl.update db attempt_id
            (fun a => { a with answers := some existing })
        (db2, .ok true)

/-- Accumulator of the scoring loop in `submit_assessment` (lines 724–781). -/
structure ScoreAcc where
  correct_count : Int := 0
  wrong_count : Int := 0
  skipped_count : Int := 0
  total_marks : Int := 0
  earned_marks : Int := 0
  results_answers : List (String × StoredAnswer) := []
  detail_rows : List AptitudeAttemptDetail := []
deriving DecidableEq, Repr

/-- One iteration of the scoring loop of `submit_assessment`: resolve the
question (bank first, generated payload second; unresolvable references are
skipped), accumulate marks, compare a truthy answer case-insensitively to the
canonical correct key, and build the results entry and the detail row with the
presented option order. -/
def score_question (db : DBState) (attempt : AptitudeAttempt) (attempt_id : String)
    (merged_answers : List (String × Option String)) (acc : ScoreAcc)
    (q_id : String) : ScoreAcc :=
  let selected : Option String := (dictGet merged_answers q_id).bind id
  let question := get_question_safe db q_id
  let generated : Option GeneratedQuestion :=
    if question.isSome then none
    else dictGet (orEmptyDict attempt.generated_questions) q_id
  if question = none && generated = none then acc
  else
    let marks : Int :=
      match question with
      | some q => pyOrInt (some q.marks) 1
      | none => pyOrInt ((generated.map (fun g => g.marks)).getD none) 1
    let correct_opt : Option String :=
      match question with
      | some q => some q.correct_option
      | none => (generated.map (fun g => g.correct_option)).getD none
    let is_correct : Bool :=
      strTruthy selected && (pyUpper (selected.getD "") == pyUpper (pyStr correct_opt))
    let category : String :=
      match question with
      | some q => q.category
      | none => ((generated.map (fun g => g.category)).getD none).getD "RESUME"
    let order : Option (List String) :=
      if optDictTruthy attempt.option_orders then
        dictGet (orEmptyDict attempt.option_orders) q_id
      else none
    let presented_options :=
      apply_option_order
        (match question with
         | some q => q.options
         | none => (generated.map (fun g => g.options)).getD [])
        order
    { correct_count := acc.correct_count + (if strTruthy selected && is_correct then 1 else 0)
      wrong_count := acc.wrong_count + (if strTruthy selected && ¬ is_correct then 1 else 0)
      skipped_count := acc.skipped_count + (if strTruthy selected then 0 else 1)
      total_marks := acc.total_marks + marks
      earned_marks := acc.earned_marks + (if strTruthy selected && is_correct then marks else 0)
      results_answers :=
        dictInsert acc.results_answers q_id
          (.dict { selected := selected
                   is_correct := some is_correct
                   correct_option := correct_opt
                   category := some category
                   marks := some marks })
      detail_rows := acc.detail_rows ++
        [{ attempt_id := attempt_id
           question_id := question.map (fun q => q.id)
           question_text :=
             match question with
             | some q => some q.question_text
             | none => (generated.map (fun g => g.question_text)).getD none
           options := presented_options
           generated := generated.isSome && question.isNone
           selected_option := selected
           correct_option := correct_opt
           is_correct := is_correct
           marks := marks
           category := category }] }

/-- The scoring loop over the attempt's frozen question order. -/
def score_loop (db : DBState) (attempt : AptitudeAttempt) (attempt_id : String)
    (merged_answers : List (String × Option String)) (question_ids : List String) :
    ScoreAcc :=
  question_ids.foldl (score_question db attempt attempt_id merged_answers) {}

/-- The answer-merge pipeline of `submit_assessment` (lines 700–721):
normalise the stored answers, overwrite with the incoming final answers
stamped at the server-measured elapsed time, null the `selected` value of any
answer saved past its question's deadline (timed modes only), and project out
the selected options. -/
def merged_answers_for_submit (now : Int) (db : DBState)
    (attempt : AptitudeAttempt) (user_answers : List (String × Option String)) :
    List (String × Option String) :=
  let stored0 := normalize_saved_answers (some (orEmptyDict attempt.answers))
  let elapsed_seconds := now - attempt.started_at
  let stored1 :=
    user_answers.foldl
      (fun stored p =>
        dictInsert stored p.1 { selected := p.2, saved_at := some elapsed_seconds })
      stored0
  let stored2 :=
    if is_timed_mode attempt.mode && listTruthy attempt.question_ids then
      let deadlines := build_question_deadlines db attempt
      stored1.map (fun p =>
        match p.2.saved_at with
        | some s =>
          if past_deadline deadlines p.1 s then (p.1, { p.2 with selected := none })
          else p
        | none => p)
    else stored1
  stored2.map (fun p => (p.1, p.2.selected))

/-- `submit_assessment` (lines 683–812). `time_taken_seconds` is the
client-reported duration; `profile_sync` is the outcome of the downstream
`_sync_profile_aptitude_score` call (an external profile-table effect whose
exceptions the source does not catch). Returns the updated store and the
operation outcome (`none` inside `.ok` mirrors `repo.update` returning
`None`). -/
def submit_assessment (now : Int) (profile_sync : Except String Unit)
    (db : DBState) (attempt_id : String) (user_id : String)
    (user_answers : List (String × Option String)) (time_taken_seconds : Int) :
    DBState × Except String (Option AptitudeAttempt) :=
  match AptitudeAttemptRepositoryImpl.get_by_id db attempt_id with
  | none => (db, .error "Attempt not found")
  | some attempt =>
    if attempt.user_id ≠ user_id then (db, .error "Attempt not found")
    else if attempt.completed_at ≠ none then (db, .error "Assessment already submitted")
    else
      let elapsed_seconds := now - attempt.started_at
      let merged_answers := merged_answers_for_submit now db attempt user_answers
      let question_ids :=
        if listTruthy attempt.question_ids then attempt.question_ids.getD []
        else merged_answers.map (fun p => p.1)
      let acc := score_loop db attempt attempt_id merged_answers question_ids
      let score : ℚ :=
        if acc.total_marks > 0 then
          (acc.earned_marks : ℚ) / (acc.total_marks : ℚ) * 100
        else 0
      let (db1, updated_attempt) :=
        AptitudeAttemptRepositoryImpl.update db attempt_id
          (fun a =>
            { a with
              completed_at := some now
              correct_answers := acc.correct_count
              wrong_answers := acc.wrong_count
              skipped := acc.skipped_count
              score := pyRound1 score
              time_taken_seconds := elapsed_seconds
              answers := some acc.results_answers
              status := AttemptStatus.COMPLETED })
      let db2 :=
        { db1 with
          details :=
            db1.details.filter (fun d => d.attempt_id ≠ attempt_id) ++ acc.detail_rows }
      match profile_sync with
      | .error e => (db2, .error e)
      | .ok _ => (db2, .ok updated_attempt)

/-- The saved-answer view returned to the client by `get_active_attempt` /
`get_attempt_briefs`: dict payloads expose their `selected` key, legacy raw
values pass through. -/
def user_answer_view (answers : Option (List (String × StoredAnswer))) :
    List (String × Option String) :=
  (orEmptyDict answers).map (fun p =>
    match p.2 with
    | .dict d => (p.1, d.selected)
    | .raw v => (p.1, v))

/-- The question-brief list rebuilt on resume (lines 590–614 of
`get_active_attempt`, identical in `get_attempt_briefs`): bank questions and
generated payloads re-rendered through the stored option order; unresolvable
references are skipped; legacy attempts without `question_ids` fall back to
the answer keys with canonical option order. -/
def resume_question_briefs (db : DBState) (attempt : AptitudeAttempt) :
    List QuestionBrief :=
  if listTruthy attempt.question_ids then
    (attempt.question_ids.getD []).foldl
      (fun briefs qid =>
        match get_question_safe db qid with
        | none =>
          if optDictTruthy attempt.generated_questions
              && dictMem (orEmptyDict attempt.generated_questions) qid then
            match dictGet (orEmptyDict attempt.generated_questions) qid with
            | some gen =>
              let order :=
                if optDictTruthy attempt.option_orders then
                  dictGet (orEmptyDict attempt.option_orders) qid
                else none
              let options := apply_option_order gen.options order
              let effective_limit :=
                effective_time_limit gen.time_limit_seconds (is_timed_mode attempt.mode)
              briefs ++ [build_generated_brief qid gen options effective_limit]
            | none => briefs
          else briefs
        | some q =>
          let order :=
            if optDictTruthy attempt.option_orders then
              dictGet (orEmptyDict attempt.option_orders) qid
            else none
          let options := apply_option_order q.options order
          let effective_limit :=
            effective_time_limit q.time_limit_seconds (is_timed_mode attempt.mode)
          briefs ++ [build_question_brief q options effective_limit])
      []
  else
    (orEmptyDict attempt.answers).foldl
      (fun briefs p =>
        match get_question_safe db p.1 with
        | some q => briefs ++ [build_question_brief q q.options]
        | none => briefs)
      []

/-- `get_active_attempt` (lines 573–624): fetch the user's single active
attempt; in timed modes, if the server-measured elapsed time exceeds the
maximum scheduled deadline, auto-submit with an empty answer map and raise
`Session expired`; otherwise return the attempt, the re-derived question
briefs and the saved answers. -/
def get_active_attempt (now : Int) (profile_sync : Except String Unit)
    (db : DBState) (user_id : String) :
    DBState × Except String (Option AptitudeAttempt × List QuestionBrief × List (String × Option String)) :=
  match AptitudeAttemptRepositoryImpl.get_active_attempt db user_id with
  | none => (db, .ok (none, [], []))
  | some attempt =>
    let expired : Bool :=
      if is_timed_mode attempt.mode && listTruthy attempt.question_ids then
        let deadlines := build_question_deadlines db attempt
        let elapsed := now - attempt.started_at
        total_allowed deadlines > 0 && elapsed > total_allowed deadlines
      else false
    if expired then
      let elapsed := now - attempt.started_at
      match submit_assessment now profile_sync db attempt.id user_id [] elapsed with
      | (db2, .error e) => (db2, .error e)
      | (db2, .ok _) => (db2, .error "Session expired")
    else
      (db, .ok (some attempt, resume_question_briefs db attempt,
        user_answer_view attempt.answers))

/-- The persistence step of `start_assessment` (lines 199–221): the empty-set
failure triage and the unconditional `repo.create` of a fresh `IN_PROGRESS`
attempt. The question-composition phase (lines 52–198: bank selection,
resume-based generation, anti-repetition filtering and the shuffles) is
supplied through its outputs — `question_briefs`, `option_orders`,
`generated_questions`, and the `resume_request` / `resume_based_count`
bookkeeping — because no part of it reads or checks the user's active
attempts; `new_id` is the generated primary key. No existing attempt row is
consulted or modified on any path. -/
def start_assessment_persist (db : DBState) (new_id : String) (user_id : String)
    (category : Option String) (difficulty : Option String) (mode : AptitudeMode)
    (resume_request : Option Int) (resume_based_count : Int)
    (question_briefs : List QuestionBrief)
    (option_orders : List (String × List String))
    (generated_questions : List (String × GeneratedQuestion))
    (now : Int) : DBState × Except String (AptitudeAttempt × List QuestionBrief) :=
  let question_ids := question_briefs.map (fun q => q.id)
  if question_briefs.isEmpty then
    if mode = AptitudeMode.RESUME_ONLY then
      (db, .error "Resume test could not start. No skills/projects detected from resume.")
    else if intOptTruthy resume_request && resume_based_count = 0 then
      (db, .error "Resume questions could not be generated and no approved questions are available.")
    else
      (db, .error "No approved aptitude questions available. Ask admin to approve questions.")
  else
    let (db2, attempt) :=
      AptitudeAttemptRepositoryImpl.create db new_id user_id
        (question_ids.length) category difficulty mode AttemptStatus.IN_PROGRESS
        (some question_ids) (some option_orders)
        (if generated_questions.isEmpty then none else some generated_questions) now
    (db2, .ok (attempt, question_briefs))

/-- The canonical data a question reference resolves to in the scoring loop:
the marks (after the `or 1` falsy-fallback) and the canonical correct key
(after `str(...)`), from the bank row or the generated payload. `none` when
the reference resolves to neither. -/
def resolve_canonical (db : DBState) (attempt : AptitudeAttempt) (qid : String) :
    Option (Int × String) :=
  match get_question_safe db qid with
  | some q => some (pyOrInt (some q.marks) 1, q.correct_option)
  | none =>
    match dictGet (orEmptyDict attempt.generated_questions) qid with
    | some g => some (pyOrInt g.marks 1, pyStr g.correct_option)
    | none => none

/-- An answer counts as present for scoring iff it is truthy (`if selected:`). -/
def present_answer (a : Option String) : Option String :=
  if strTruthy a then a else none

/-- Closed form of the deadline fold: the running-sum schedule over a question
list, given the per-question limit function `L` and a starting elapsed sum. -/
def dl_spec (L : String → Int) (e : Int) : List String → List (String × Option Int)
  | [] => []
  | q :: qs =>
    if L q ≤ 0 then (q, none) :: dl_spec L e qs
    else (q, some (e + L q)) :: dl_spec L (e + L q) qs

/-- The elapsed sum accumulated by the deadline fold over a question list. -/
def dl_after (L : String → Int) (e : Int) (qs : List String) : Int :=
  qs.foldl (fun a q => if L q ≤ 0 then a else a + L q) e

end AptitudeAttemptService

/-! ## Specification-side scoring
(spec §4.5 Scoring Engine, for the refinement claim) -/

namespace ScoringSpec

/-- The outcome of the spec's scoring contract. -/
structure SpecScore where
  correct : Int := 0
  wrong : Int := 0
  skipped : Int := 0
  earned_marks : Int := 0
  total_marks : Int := 0
deriving DecidableEq, Repr

/-- One question of the spec's scoring description: `totalMarks += marks`;
a present answer compared case-insensitively to the canonical correct key
increments `correct` (and earns the marks) on a match and `wrong` on a
mismatch; an absent answer increments `skipped`. The item carries
`(answer?, marks, correct key)`. -/
def score_step (acc : SpecScore) (item : Option String × Int × String) : SpecScore :=
  let acc := { acc with total_marks := acc.total_marks + item.2.1 }
  match item.1 with
  | some a =>
    if pyUpper a == pyUpper item.2.2 then
      { acc with correct := acc.correct + 1, earned_marks := acc.earned_marks + item.2.1 }
    else
      { acc with wrong := acc.wrong + 1 }
  | none => { acc with skipped := acc.skipped + 1 }

/-- Fold of `score_step` over the resolvable questions in frozen order. -/
def score_all (items : List (Option String × Int × String)) : SpecScore :=
  items.foldl score_step {}

/-- The spec's final score: `round(earnedMarks / totalMarks * 100, 1)` when
`totalMarks > 0`, else `0`. -/
def final_score (s : SpecScore) : ℚ :=
  if s.total_marks > 0 then
    pyRound1 ((s.earned_marks : ℚ) / (s.total_marks : ℚ) * 100)
  else 0

end ScoringSpec

/-! ## The single-active-attempt invariant -/

/-- The number of live (`IN_PROGRESS`, not completed) attempt rows a user
owns. The spec's invariant is that this never exceeds 1. -/
def active_in_progress_count (db : DBState) (user_id : String) : Nat :=
  (db.attempts.filter (fun a =>
    a.user_id == user_id && a.status == AttemptStatus.IN_PROGRESS
      && a.completed_at == none)).length

/-! ## Concrete fixtures -/

/-- A bank question with a 3-second time limit. -/
def fixture_q1 : AptitudeQuestion :=
  { id := "11111111-1111-1111-1111-111111111111"
    question_text := "What is 1 + 1?"
    options := [("A", "1"), ("B", "2"), ("C", "3"), ("D", "4")]
    correct_option := "B"
    category := "QUANTITATIVE"
    difficulty := "EASY"
    sub_topic := none
    marks := 1
    time_limit_seconds := some 3 }

/-- A bank question with no explicit time limit (gets the 60-second default in
timed modes). -/
def fixture_q2 : AptitudeQuestion :=
  { fixture_q1 with
    id := "22222222-2222-2222-2222-222222222222"
    time_limit_seconds := none }

/-- An in-progress timed (`TEST`) attempt over the two fixture questions,
started at t = 100. -/
def fixture_attempt : AptitudeAttempt :=
  { id := "a1"
    user_id := "u1"
    category := none
    difficulty := none
    mode := AptitudeMode.TEST
    status := AttemptStatus.IN_PROGRESS
    total_questions := 2
    correct_answers := 0
    wrong_answers := 0
    skipped := 0
    score := 0
    time_taken_seconds := 0
    answers := some []
    question_ids := some [fixture_q1.id, fixture_q2.id]
    option_orders := some [(fixture_q1.id, ["C", "A", "B", "D"]),
                           (fixture_q2.id, ["B", "A", "D", "C"])]
    generated_questions := none
    started_at := 100
    completed_at := none }

/-- Store holding the fixture attempt and the two bank questions. -/
def fixture_db : DBState :=
  { attempts := [fixture_attempt], questions := [fixture_q1, fixture_q2], details := [] }

/-- A question brief standing for an arbitrary composed question set. -/
def fixture_brief : AptitudeAttemptService.QuestionBrief :=
  { id := fixture_q1.id
    question_text := some fixture_q1.question_text
    options := fixture_q1.options
    category := fixture_q1.category
    difficulty := fixture_q1.difficulty
    sub_topic := none
    marks := 1
    time_limit_seconds := some 3 }

/-- A bank question row whose stored time limit is explicitly 0. The
service's own write paths all validate limits into the 10–3600 range or
coerce them to `None` (`_validate_time_limit` in the question service, also
applied by `parse_csv`), so such a row models data written outside those
paths (direct database writes, migrations, or legacy rows); the attempt
engine itself never validates stored limits and handles 0 via its
`limit <= 0` branch. -/
def fixture_q0 : AptitudeQuestion :=
  { fixture_q1 with
    id := "33333333-3333-3333-3333-333333333333"
    time_limit_seconds := some 0 }

/-- A timed attempt whose single question has the explicit 0 time limit. -/
def fixture_attempt_zero : AptitudeAttempt :=
  { fixture_attempt with
    id := "az"
    total_questions := 1
    question_ids := some [fixture_q0.id]
    option_orders := some [(fixture_q0.id, ["A", "B", "C", "D"])] }

/-- Store for the zero-limit counterexample. -/
def fixture_db_zero : DBState :=
  { attempts := [fixture_attempt_zero], questions := [fixture_q0], details := [] }

/-- The `limits.get(qid) or 0` lookup the deadline builder applies per
question: the effective per-question limit in the attempt. -/
def limit_lookup (db : DBState) (attempt : AptitudeAttempt) (qid : String) : Int :=
  (dictGet (AptitudeAttemptService.build_question_time_limits db attempt) qid).getD 0

/-- The stored answers of an attempt row as currently persisted. -/
def answers_in_db (db : DBState) (attempt_id : String) :
    List (String × StoredAnswer) :=
  orEmptyDict (((AptitudeAttemptRepositoryImpl.get_by_id db attempt_id).map
    (fun a => a.answers)).getD none)

/-! ## Derived forms of `submit_assessment` (abbreviations of its body, used
to state the characterization lemma) -/

namespace AptitudeAttemptService

/-- The question-id list `attempt.question_ids or list(merged_answers.keys())`
the scoring loop runs over. -/
def submit_question_ids (attempt : AptitudeAttempt)
    (merged_answers : List (String × Option String)) : List String :=
  if listTruthy attempt.question_ids then attempt.question_ids.getD []
  else merged_answers.map (fun p => p.1)

/-- The scoring-loop accumulator a submit call computes. -/
def submit_acc (now : Int) (db : DBState) (attempt_id : String)
    (attempt : AptitudeAttempt) (user_answers : List (String × Option String)) :
    ScoreAcc :=
  let merged := merged_answers_for_submit now db attempt user_answers
  score_loop db attempt attempt_id merged (submit_question_ids attempt merged)

/-- The field updates a submit call persists on the attempt row. -/
def submit_update_fn (now : Int) (db : DBState) (attempt_id : String)
    (attempt : AptitudeAttempt) (user_answers : List (String × Option String)) :
    AptitudeAttempt → AptitudeAttempt :=
  let acc := submit_acc now db attempt_id attempt user_answers
  let score : ℚ :=
    if acc.total_marks > 0 then
      (acc.earned_marks : ℚ) / (acc.total_marks : ℚ) * 100
    else 0
  fun a =>
    { a with
      completed_at := some now
      correct_answers := acc.correct_count
      wrong_answers := acc.wrong_count
      skipped := acc.skipped_count
      score := pyRound1 score
      time_taken_seconds := now - attempt.started_at
      answers := some acc.results_answers
      status := AttemptStatus.COMPLETED }

/-- The completed attempt row a successful submit call returns. -/
def submit_updated_attempt (now : Int) (db : DBState) (attempt_id : String)
    (attempt : AptitudeAttempt) (user_answers : List (String × Option String)) :
    AptitudeAttempt :=
  submit_update_fn now db attempt_id attempt user_answers attempt

/-- The store a submit call leaves behind: the updated attempt row, prior
detail rows for the attempt deleted, fresh detail rows appended. -/
def submit_post_db (now : Int) (db : DBState) (attempt_id : String)
    (attempt : AptitudeAttempt) (user_answers : List (String × Option String)) :
    DBState :=
  let db1 := (AptitudeAttemptRepositoryImpl.update db attempt_id
    (submit_update_fn now db attempt_id attempt user_answers)).1
  { db1 with
    details := db1.details.filter (fun d => d.attempt_id ≠ attempt_id)
      ++ (submit_acc now db attempt_id attempt user_answers).detail_rows }

/-- The per-question items the spec's Scoring Engine consumes, extracted
through the code's own resolution rules: the present (truthy) merged answer,
the marks after the falsy fallback, and the canonical correct key as a
string. Unresolvable references are absent. -/
def spec_items (db : DBState) (attempt : AptitudeAttempt)
    (merged : List (String × Option String)) (qids : List String) :
    List (Option String × Int × String) :=
  qids.filterMap (fun qid =>
    (resolve_canonical db attempt qid).map
      (fun mc => (present_answer ((dictGet merged qid).bind id), mc.1, mc.2)))

end AptitudeAttemptService

/-- The `n`-th of ten bank questions (marks 1, no time limit) for the
ten-question scenario. -/
def fixture_q_n (n : Nat) : AptitudeQuestion :=
  { fixture_q1 with
    id := "44444444-4444-4444-4444-44444444440" ++ String.mk [Char.ofNat (48 + n)]
    time_limit_seconds := none }

/-- An untimed PRACTICE attempt over the ten questions with no saved
answers. -/
def fixture_attempt10 : AptitudeAttempt :=
  { fixture_attempt with
    id := "a10"
    mode := AptitudeMode.PRACTICE
    total_questions := 10
    question_ids := some ((List.range 10).map (fun n => (fixture_q_n n).id))
    option_orders := none }

/-- Store for the ten-question scenario. -/
def fixture_db10 : DBState :=
  { attempts := [fixture_attempt10]
    questions := (List.range 10).map fixture_q_n
    details := [] }

/-! ## Rounding lemmas -/

theorem roundHalfEven_zero : roundHalfEven 0 = 0 := by
  rw [roundHalfEven]
  norm_num

theorem pyRound1_zero : pyRound1 0 = 0 := by
  rw [pyRound1]
  norm_num [roundHalfEven_zero]

/-! ## Association-list lemmas -/

theorem dictGet_nil (k : String) : dictGet ([] : List (String × α)) k = none := rfl

theorem dictGet_cons (p : String × α) (d : List (String × α)) (k : String) :
    dictGet (p :: d) k = if p.1 == k then some p.2 else dictGet d k := by
  simp only [dictGet, List.find?]
  by_cases h : p.1 == k
  · simp [h]
  · simp [h]

theorem dictGet_append (A B : List (String × α)) (k : String) :
    dictGet (A ++ B) k =
      match dictGet A k with
      | some v => some v
      | none => dictGet B k := by
  induction A with
  | nil => simp [dictGet]
  | cons p rest ih =>
    rw [List.cons_append, dictGet_cons, dictGet_cons]
    by_cases h : p.1 == k
    · simp [h]
    · simp [h, ih]

theorem dictMem_eq_isSome (d : List (String × α)) (k : String) :
    dictMem d k = (dictGet d k).isSome := by
  induction d with
  | nil => rfl
  | cons p rest ih =>
    rw [dictGet_cons]
    by_cases h : p.1 == k
    · simp [dictMem, h]
    · simp only [dictMem] at ih ⊢
      simp [h, ih]

theorem dictInsert_fresh (d : List (String × α)) (k : String) (v : α)
    (h : dictMem d k = false) : dictInsert d k v = d ++ [(k, v)] := by
  simp [dictInsert, h]

/-- `dictGet` on a value-mapped association list. -/
theorem dictGet_map_snd (d : List (String × α)) (g : String × α → β) (k : String) :
    dictGet (d.map (fun p => (p.1, g p))) k = (d.find? (fun p => p.1 == k)).map g := by
  induction d with
  | nil => rfl
  | cons p rest ih =>
    rw [List.map_cons, dictGet_cons]
    by_cases h : p.1 == k
    · simp [List.find?, h]
    · simp only [List.find?, h]
      simpa [h] using ih

theorem dictGet_overwrite_map (d : List (String × α)) (k : String) (v : α) :
    dictGet (d.map (fun p => if p.1 == k then (k, v) else p)) k =
      if dictMem d k then some v else none := by
  induction d with
  | nil => simp [dictMem, dictGet]
  | cons p rest ih =>
    rw [List.map_cons]
    by_cases hp : (p.1 == k) = true
    · rw [if_pos hp, dictGet_cons]
      simp [dictMem, hp]
    · have hp2 : (p.1 == k) = false := eq_false_of_ne_true hp
      rw [if_neg hp, dictGet_cons, if_neg hp, ih]
      have hmm : dictMem (p :: rest) k = dictMem rest k := by
        simp [dictMem, List.any_cons, hp2]
      rw [hmm]

theorem dictGet_overwrite_map_ne (d : List (String × α)) (k2 k : String) (v : α)
    (h : ¬ k2 = k) :
    dictGet (d.map (fun p => if p.1 == k2 then (k2, v) else p)) k = dictGet d k := by
  induction d with
  | nil => rfl
  | cons p rest ih =>
    rw [List.map_cons]
    by_cases hp : (p.1 == k2) = true
    · rw [if_pos hp, dictGet_cons, dictGet_cons]
      have hp1 : ¬ (p.1 == k) = true := by
        simp only [beq_iff_eq] at hp ⊢
        rw [hp]; exact h
      have hk2 : ¬ (k2 == k) = true := by simpa using h
      rw [if_neg hk2, if_neg hp1, ih]
    · rw [if_neg hp, dictGet_cons, dictGet_cons, ih]

theorem dictGet_not_mem_none (d : List (String × α)) (k : String)
    (h : ¬ dictMem d k = true) : dictGet d k = none := by
  rw [dictMem_eq_isSome] at h
  cases hg : dictGet d k with
  | none => rfl
  | some v2 => rw [hg] at h; simp at h

theorem dictGet_dictInsert_self (d : List (String × α)) (k : String) (v : α) :
    dictGet (dictInsert d k v) k = some v := by
  rw [dictInsert]
  by_cases h : dictMem d k
  · rw [if_pos h, dictGet_overwrite_map, if_pos h]
  · rw [if_neg h, dictGet_append, dictGet_not_mem_none d k h]
    simp [dictGet_cons]

theorem dictGet_dictInsert_ne (d : List (String × α)) (k2 k : String) (v : α)
    (h : ¬ k2 = k) : dictGet (dictInsert d k2 v) k = dictGet d k := by
  rw [dictInsert]
  by_cases hm : dictMem d k2
  · rw [if_pos hm, dictGet_overwrite_map_ne d k2 k v h]
  · rw [if_neg hm, dictGet_append]
    cases hg : dictGet d k with
    | some v2 => rfl
    | none =>
      have hk2 : ¬ (k2 == k) = true := by simpa using h
      simp [dictGet_cons, hk2, dictGet_nil]

theorem dictMem_dictInsert_self (d : List (String × α)) (k : String) (v : α) :
    dictMem (dictInsert d k v) k = true := by
  rw [dictMem_eq_isSome, dictGet_dictInsert_self]
  rfl

theorem dictMem_dictInsert_of_mem (d : List (String × α)) (k2 k : String) (v : α)
    (h : dictMem d k = true) : dictMem (dictInsert d k2 v) k = true := by
  by_cases hk : k2 = k
  · subst hk; exact dictMem_dictInsert_self d k2 v
  · rw [dictMem_eq_isSome, dictGet_dictInsert_ne d k2 k v hk, ← dictMem_eq_isSome]
    exact h

/-! ## Repository-update lemmas -/

theorem find?_id_map_update (l : List AptitudeAttempt) (aid : String)
    (b : AptitudeAttempt) (a : AptitudeAttempt)
    (hb : b.id = a.id) (h : l.find? (fun x => x.id == aid) = some a) :
    (l.map (fun x => if x.id == aid then b else x)).find?
        (fun x => x.id == aid) = some b := by
  induction l with
  | nil => simp at h
  | cons x rest ih =>
    rw [List.map_cons]
    by_cases hx : (x.id == aid) = true
    · have hax : x = a := by
        simp only [List.find?, hx] at h
        exact Option.some_inj.mp h
      subst hax
      rw [if_pos hx]
      have hbx : (b.id == aid) = true := by
        rw [hb]; exact hx
      simp only [List.find?, hbx]
    · rw [if_neg hx]
      simp only [List.find?, hx] at h ⊢
      exact ih h

/-- Reading back the row just written by `repo.update`. -/
theorem get_by_id_update (db : DBState) (aid : String)
    (f : AptitudeAttempt → AptitudeAttempt) (a : AptitudeAttempt)
    (hf : (f a).id = a.id)
    (h : AptitudeAttemptRepositoryImpl.get_by_id db aid = some a) :
    (AptitudeAttemptRepositoryImpl.update db aid f).2 = some (f a) ∧
    AptitudeAttemptRepositoryImpl.get_by_id
      (AptitudeAttemptRepositoryImpl.update db aid f).1 aid = some (f a) ∧
    (AptitudeAttemptRepositoryImpl.update db aid f).1.details = db.details ∧
    (AptitudeAttemptRepositoryImpl.update db aid f).1.questions = db.questions := by
  have h2 : db.attempts.find? (fun x => x.id == aid) = some a := h
  refine ⟨?_, ?_, ?_, ?_⟩
  · rw [AptitudeAttemptRepositoryImpl.update, h2]
  · rw [AptitudeAttemptRepositoryImpl.update, h2]
    exact find?_id_map_update db.attempts aid (f a) a hf h2
  · rw [AptitudeAttemptRepositoryImpl.update, h2]
  · rw [AptitudeAttemptRepositoryImpl.update, h2]

/-! ## Autosave-merge lemmas -/

namespace AptitudeAttemptService

/-- The autosave loop body on an answer past its deadline: no write. -/
theorem autosave_step_past (deadlines : List (String × Option Int)) (elapsed : Int)
    (init : List (String × StoredAnswer)) (p : String × Option String)
    (h : past_deadline deadlines p.1 elapsed = true) :
    autosave_step deadlines elapsed init p = init := by
  rw [autosave_step, if_pos h]

/-- The autosave loop body on an in-time answer: overwrite stamped at
`elapsed`. -/
theorem autosave_step_in_time (deadlines : List (String × Option Int)) (elapsed : Int)
    (init : List (String × StoredAnswer)) (p : String × Option String)
    (h : past_deadline deadlines p.1 elapsed = false) :
    autosave_step deadlines elapsed init p =
      dictInsert init p.1
        (.dict
          { (match dictGet init p.1 with
             | some (StoredAnswer.dict d) => d
             | _ => {}) with selected := p.2, saved_at := some elapsed }) := by
  rw [autosave_step, if_neg (by rw [h]; exact Bool.false_ne_true)]

/-- A key every occurrence of which is past its deadline is never written by
the autosave merge. -/
theorem autosave_fold_get_skipped (deadlines : List (String × Option Int))
    (elapsed : Int) (k : String) (hskip : past_deadline deadlines k elapsed = true) :
    ∀ (ans : List (String × Option String)) (init : List (String × StoredAnswer)),
      dictGet (ans.foldl (autosave_step deadlines elapsed) init) k = dictGet init k := by
  intro ans
  induction ans with
  | nil => intro init; rfl
  | cons p rest ih =>
    intro init
    rw [List.foldl_cons, ih]
    rw [autosave_step]
    by_cases hpk : p.1 = k
    · rw [if_pos (hpk ▸ hskip)]
    · by_cases hd : past_deadline deadlines p.1 elapsed
      · rw [if_pos hd]
      · rw [if_neg hd]
        exact dictGet_dictInsert_ne _ p.1 k _ hpk

/-- A key that does not occur in the incoming answer map is left untouched by
the autosave merge. -/
theorem autosave_fold_get_not_mem (deadlines : List (String × Option Int))
    (elapsed : Int) (k : String) :
    ∀ (ans : List (String × Option String)), k ∉ ans.map Prod.fst →
      ∀ (init : List (String × StoredAnswer)),
        dictGet (ans.foldl (autosave_step deadlines elapsed) init) k = dictGet init k := by
  intro ans
  induction ans with
  | nil => intro _ init; rfl
  | cons p rest ih =>
    intro hnotin init
    have hpk : ¬ p.1 = k := by
      intro hc
      exact hnotin (by rw [List.map_cons, hc]; exact List.mem_cons_self _ _)
    rw [List.foldl_cons,
      ih (fun hc => hnotin (by rw [List.map_cons]; exact List.mem_cons_of_mem _ hc))]
    rw [autosave_step]
    by_cases hd : past_deadline deadlines p.1 elapsed
    · rw [if_pos hd]
    · rw [if_neg hd]
      exact dictGet_dictInsert_ne _ p.1 k _ hpk

/-- An accepted answer whose key occurs once in the incoming map is stored
over its previous payload, stamped at the elapsed seconds. -/
theorem autosave_fold_get_stored (deadlines : List (String × Option Int))
    (elapsed : Int) :
    ∀ (ans : List (String × Option String)) (init : List (String × StoredAnswer))
      (k : String) (v : Option String),
      (ans.map Prod.fst).Nodup → (k, v) ∈ ans →
      past_deadline deadlines k elapsed = false →
      dictGet (ans.foldl (autosave_step deadlines elapsed) init) k =
        some (.dict
          { (match dictGet init k with
             | some (StoredAnswer.dict d) => d
             | _ => {}) with selected := v, saved_at := some elapsed }) := by
  intro ans
  induction ans with
  | nil => intro init k v _ hmem; simp at hmem
  | cons p rest ih =>
    intro init k v hnd hmem hok
    rw [List.map_cons] at hnd
    have hnd2 := List.nodup_cons.mp hnd
    by_cases hpk : p.1 = k
    · have hrestfree : (k, v) ∉ rest := by
        intro hc
        apply hnd2.1
        rw [hpk]
        exact List.mem_map.mpr ⟨(k, v), hc, rfl⟩
      have hpv : p = (k, v) := by
        rcases List.mem_cons.mp hmem with heq | hmem2
        · exact heq.symm
        · exact absurd hmem2 hrestfree
      cases hpv
      rw [List.foldl_cons, autosave_step_in_time deadlines elapsed init (k, v) hok]
      rw [autosave_fold_get_not_mem deadlines elapsed k rest (hpk ▸ hnd2.1)]
      exact dictGet_dictInsert_self _ _ _
    · have hmem2 : (k, v) ∈ rest := by
        rcases List.mem_cons.mp hmem with heq | hmem2
        · exact absurd (congrArg Prod.fst heq.symm) hpk
        · exact hmem2
      rw [List.foldl_cons]
      have hstep : dictGet (autosave_step deadlines elapsed init p) k = dictGet init k := by
        by_cases hd : past_deadline deadlines p.1 elapsed
        · rw [autosave_step_past deadlines elapsed init p hd]
        · rw [autosave_step_in_time deadlines elapsed init p
            (Bool.not_eq_true _ ▸ eq_false_of_ne_true hd)]
          exact dictGet_dictInsert_ne _ p.1 k _ hpk
      rw [ih (autosave_step deadlines elapsed init p) k v hnd2.2 hmem2 hok]
      rw [hstep]

/-- The autosave merge never removes a stored key. -/
theorem autosave_fold_mem_preserve (deadlines : List (String × Option Int))
    (elapsed : Int) (k : String) :
    ∀ (ans : List (String × Option String)) (init : List (String × StoredAnswer)),
      dictMem init k = true →
      dictMem (ans.foldl (autosave_step deadlines elapsed) init) k = true := by
  intro ans
  induction ans with
  | nil => intro init h; exact h
  | cons p rest ih =>
    intro init h
    rw [List.foldl_cons]
    apply ih
    by_cases hd : past_deadline deadlines p.1 elapsed
    · rw [autosave_step_past deadlines elapsed init p hd]; exact h
    · rw [autosave_step_in_time deadlines elapsed init p
        (Bool.not_eq_true _ ▸ eq_false_of_ne_true hd)]
      exact dictMem_dictInsert_of_mem init p.1 k _ h

/-- An in-time incoming answer leaves its key present in the merged map. -/
theorem autosave_fold_mem_of_in_time (deadlines : List (String × Option Int))
    (elapsed : Int) :
    ∀ (ans : List (String × Option String)) (init : List (String × StoredAnswer))
      (p : String × Option String), p ∈ ans →
      past_deadline deadlines p.1 elapsed = false →
      dictMem (ans.foldl (autosave_step deadlines elapsed) init) p.1 = true := by
  intro ans
  induction ans with
  | nil => intro init p hmem; simp at hmem
  | cons q rest ih =>
    intro init p hmem hok
    rw [List.foldl_cons]
    rcases List.mem_cons.mp hmem with heq | hmem2
    · subst heq
      apply autosave_fold_mem_preserve
      rw [autosave_step_in_time deadlines elapsed init p hok]
      exact dictMem_dictInsert_self _ _ _
    · exact ih _ p hmem2 hok

theorem dl_spec_keys (L : String → Int) (e : Int) (qs : List String) :
    (dl_spec L e qs).map Prod.fst = qs := by
  induction qs generalizing e with
  | nil => rfl
  | cons q rest ih =>
    by_cases h : L q ≤ 0
    · simp [dl_spec, h, ih]
    · simp [dl_spec, h, ih]

theorem dictGet_dl_spec_not_mem (L : String → Int) (e : Int) (qs : List String)
    (k : String) (h : k ∉ qs) : dictGet (dl_spec L e qs) k = none := by
  induction qs generalizing e with
  | nil => rfl
  | cons q rest ih =>
    have hq : ¬ (q == k) = true := by
      simp only [beq_iff_eq]
      rintro rfl
      exact h (List.mem_cons_self q rest)
    by_cases hl : L q ≤ 0
    · rw [dl_spec, if_pos hl, dictGet_cons, if_neg hq]
      exact ih e (fun hm => h (List.mem_cons_of_mem _ hm))
    · rw [dl_spec, if_neg hl, dictGet_cons, if_neg hq]
      exact ih (e + L q) (fun hm => h (List.mem_cons_of_mem _ hm))

theorem dl_spec_append (L : String → Int) (e : Int) (xs ys : List String) :
    dl_spec L e (xs ++ ys) = dl_spec L e xs ++ dl_spec L (dl_after L e xs) ys := by
  induction xs generalizing e with
  | nil => simp [dl_spec, dl_after]
  | cons q rest ih =>
    by_cases h : L q ≤ 0
    · have hA : dl_after L e (q :: rest) = dl_after L e rest := by simp [dl_after, h]
      simp only [List.cons_append, dl_spec, if_pos h, hA, List.append_eq, ih e]
    · have hA : dl_after L e (q :: rest) = dl_after L (e + L q) rest := by
        simp [dl_after, h]
      simp only [List.cons_append, dl_spec, if_neg h, hA, List.append_eq, ih (e + L q)]

/-- The deadline fold of `_build_question_deadlines`, with a fresh-key
accumulator, produces exactly the `dl_spec` schedule. -/
theorem deadline_fold_eq_dl_spec (L : String → Int) (qs : List String)
    (d0 : List (String × Option Int)) (e : Int)
    (hfresh : ∀ q ∈ qs, dictMem d0 q = false) (hnd : qs.Nodup) :
    (qs.foldl
        (fun acc qid =>
          if L qid ≤ 0 then (dictInsert acc.1 qid none, acc.2)
          else (dictInsert acc.1 qid (some (acc.2 + L qid)), acc.2 + L qid))
        (d0, e)).1 = d0 ++ dl_spec L e qs := by
  induction qs generalizing d0 e with
  | nil => simp [dl_spec]
  | cons q rest ih =>
    have hq : dictMem d0 q = false := hfresh q (List.mem_cons_self q rest)
    have hrest : ∀ (v : Option Int), ∀ r ∈ rest, dictMem (d0 ++ [(q, v)]) r = false := by
      intro v r hr
      rw [dictMem_eq_isSome, dictGet_append]
      have h1 : dictGet d0 r = none := by
        have := hfresh r (List.mem_cons_of_mem _ hr)
        rw [dictMem_eq_isSome] at this
        exact Option.not_isSome_iff_eq_none.mp (by simp [this])
      have hqr : ¬ (q == r) = true := by
        simp only [beq_iff_eq]
        rintro rfl
        exact (List.nodup_cons.mp hnd).1 hr
      rw [h1]
      simp [dictGet_cons, hqr, dictGet_nil]
    by_cases h : L q ≤ 0
    · rw [List.foldl_cons, if_pos h, dictInsert_fresh _ _ _ hq]
      rw [ih _ _ (hrest none) (List.nodup_cons.mp hnd).2]
      simp [dl_spec, h]
    · rw [List.foldl_cons, if_neg h, dictInsert_fresh _ _ _ hq]
      rw [ih _ _ (hrest (some (e + L q))) (List.nodup_cons.mp hnd).2]
      simp [dl_spec, h]

/-- Lookup of the `k`-th question in the `dl_spec` schedule: with nonnegative
limits, a zero-limit question has no deadline and a positive-limit question's
deadline is the starting sum plus the cumulative limits of questions
`0..k`. -/
theorem dictGet_dl_spec_get (L : String → Int) (qs : List String) :
    ∀ (e : Int) (k : Nat) (hk : k < qs.length), qs.Nodup → (∀ q ∈ qs, 0 ≤ L q) →
      dictGet (dl_spec L e qs) (qs.get ⟨k, hk⟩) =
        some (if L (qs.get ⟨k, hk⟩) ≤ 0 then none
              else some (e + ((qs.take (k + 1)).map L).sum)) := by
  induction qs with
  | nil =>
    intro e k hk
    exact absurd hk (by simp)
  | cons q rest ih =>
    intro e k hk hnd hpos
    cases k with
    | zero =>
      by_cases h : L q ≤ 0
      · simp [dl_spec, h, dictGet_cons]
      · simp [dl_spec, h, dictGet_cons]
    | succ k =>
      have hk' : k < rest.length := by
        have h2 := hk
        simp only [List.length_cons] at h2
        omega
      have hmem : rest.get ⟨k, hk'⟩ ∈ rest := rest.get_mem k hk'
      have hne : ¬ (q == rest.get ⟨k, hk'⟩) = true := by
        simp only [beq_iff_eq]
        intro hqe
        exact (List.nodup_cons.mp hnd).1 (hqe ▸ hmem)
      have hgetc : (q :: rest).get ⟨k + 1, hk⟩ = rest.get ⟨k, hk'⟩ := rfl
      have ihr := fun e2 => ih e2 k hk' (List.nodup_cons.mp hnd).2
        (fun r hr => hpos r (List.mem_cons_of_mem _ hr))
      by_cases h : L q ≤ 0
      · have hz : L q = 0 := le_antisymm h (hpos q (List.mem_cons_self q rest))
        rw [dl_spec, if_pos h, hgetc, dictGet_cons, if_neg hne, ihr e]
        simp [List.take_succ_cons, hz]
      · have hs : e + L q + (List.map L (List.take (k + 1) rest)).sum
            = e + (List.map L (List.take (k + 1 + 1) (q :: rest))).sum := by
          simp only [List.take_succ_cons, List.map_cons, List.sum_cons]
          ring
        rw [dl_spec, if_neg h, hgetc, dictGet_cons, if_neg hne, ihr (e + L q), hs]

/-- `_build_question_deadlines` computes the `dl_spec` schedule of the
per-question limits, for attempts with (truthy, duplicate-free) question
ids. -/
theorem build_question_deadlines_eq_dl_spec (db : DBState) (attempt : AptitudeAttempt)
    (qs : List String) (hq : attempt.question_ids = some qs) (hne : qs ≠ [])
    (hnd : qs.Nodup) :
    build_question_deadlines db attempt =
      dl_spec (fun qid => (dictGet (build_question_time_limits db attempt) qid).getD 0)
        0 qs := by
  have htruthy : listTruthy attempt.question_ids = true := by
    rw [hq]; simpa [listTruthy] using hne
  rw [build_question_deadlines]
  rw [if_neg (by simp [htruthy])]
  have := deadline_fold_eq_dl_spec
    (fun qid => (dictGet (build_question_time_limits db attempt) qid).getD 0)
    qs [] 0 (fun q _ => rfl) hnd
  simp only [hq, Option.getD_some]
  exact this.trans (by simp)

end AptitudeAttemptService

/-! ## Scoring-loop lemmas -/

namespace AptitudeAttemptService

/-- A resolvable question reference contributes exactly one to the count
total; an unresolvable one contributes nothing and changes nothing. -/
theorem score_question_counts (db : DBState) (attempt : AptitudeAttempt)
    (aid : String) (merged : List (String × Option String)) (acc : ScoreAcc)
    (q : String)
    (hres : (get_question_safe db q).isSome = true ∨
      (dictGet (orEmptyDict attempt.generated_questions) q).isSome = true) :
    (score_question db attempt aid merged acc q).correct_count
        + (score_question db attempt aid merged acc q).wrong_count
        + (score_question db attempt aid merged acc q).skipped_count
      = acc.correct_count + acc.wrong_count + acc.skipped_count + 1 := by
  rw [score_question]
  have hcond : ¬ (get_question_safe db q = none ∧
      (if (get_question_safe db q).isSome = true then none
        else dictGet (orEmptyDict attempt.generated_questions) q) = none) := by
    rcases hres with h1 | h2
    · intro hc
      rw [hc.1] at h1
      simp at h1
    · intro hc
      rcases hc with ⟨hq, hg⟩
      rw [hq] at hg
      simp only [Option.isSome_none, Bool.false_eq_true, if_false] at hg
      rw [hg] at h2
      simp at h2
  rw [if_neg (by simpa using hcond)]
  dsimp only
  by_cases ht : strTruthy ((dictGet merged q).bind id) = true
  · by_cases hc :
        (pyUpper (((dictGet merged q).bind id).getD "") ==
          pyUpper (pyStr
            (match get_question_safe db q with
             | some q2 => some q2.correct_option
             | none =>
               ((if (get_question_safe db q).isSome = true then none
                 else dictGet (orEmptyDict attempt.generated_questions) q).map
                   (fun g => g.correct_option)).getD none))) = true
    · simp only [ht, hc, Bool.true_and, and_self, if_true, Bool.not_true, Bool.and_false,
        Bool.true_and, if_false, ite_true, ite_false]
      simp only [decide_not, decide_True, Bool.not_true, Bool.false_eq_true, if_false]
      omega
    · simp only [ht, hc, Bool.true_and, if_false, Bool.not_false, Bool.and_true, if_true,
        ite_true, ite_false]
      simp
      omega
  · simp only [ht, Bool.false_and, Bool.false_eq_true, if_false, ite_false]
    omega

/-- Over a list of resolvable question references, the three outcome counters
sum to the initial sum plus the list length. -/
theorem score_loop_counts (db : DBState) (attempt : AptitudeAttempt)
    (aid : String) (merged : List (String × Option String)) :
    ∀ (qids : List String) (acc : ScoreAcc),
      (∀ q ∈ qids, (get_question_safe db q).isSome = true ∨
        (dictGet (orEmptyDict attempt.generated_questions) q).isSome = true) →
      (qids.foldl (score_question db attempt aid merged) acc).correct_count
          + (qids.foldl (score_question db attempt aid merged) acc).wrong_count
          + (qids.foldl (score_question db attempt aid merged) acc).skipped_count
        = acc.correct_count + acc.wrong_count + acc.skipped_count + qids.length := by
  intro qids
  induction qids with
  | nil => intro acc _; simp
  | cons q rest ih =>
    intro acc hres
    rw [List.foldl_cons]
    rw [ih _ (fun r hr => hres r (List.mem_cons_of_mem _ hr))]
    rw [score_question_counts db attempt aid merged acc q
      (hres q (List.mem_cons_self q rest))]
    simp only [List.length_cons]
    omega

end AptitudeAttemptService

/-! ## Refinement of the scoring loop to the spec's Scoring Engine -/

namespace AptitudeAttemptService

/-- An unresolvable reference leaves the scoring accumulator unchanged. -/
theorem score_question_unresolvable (db : DBState) (attempt : AptitudeAttempt)
    (aid : String) (merged : List (String × Option String)) (acc : ScoreAcc)
    (q : String) (hq : resolve_canonical db attempt q = none) :
    score_question db attempt aid merged acc q = acc := by
  rw [resolve_canonical] at hq
  rw [score_question]
  cases hcase : get_question_safe db q with
  | some q2 => rw [hcase] at hq; simp at hq
  | none =>
    rw [hcase] at hq
    cases hgen : dictGet (orEmptyDict attempt.generated_questions) q with
    | some g => rw [hgen] at hq; simp at hq
    | none =>
      rw [if_pos]
      simp [hcase, hgen]

/-- On a resolvable reference, the scoring-loop body computes exactly the
spec's `score_step` on the extracted item, field by field. -/
theorem score_question_matches_step (db : DBState) (attempt : AptitudeAttempt)
    (aid : String) (merged : List (String × Option String)) (acc : ScoreAcc)
    (sacc : ScoringSpec.SpecScore) (q : String) (m : Int) (key : String)
    (hq : resolve_canonical db attempt q = some (m, key))
    (h1 : acc.correct_count = sacc.correct) (h2 : acc.wrong_count = sacc.wrong)
    (h3 : acc.skipped_count = sacc.skipped) (h4 : acc.total_marks = sacc.total_marks)
    (h5 : acc.earned_marks = sacc.earned_marks) :
    (score_question db attempt aid merged acc q).correct_count
        = (ScoringSpec.score_step sacc
            (present_answer ((dictGet merged q).bind id), m, key)).correct ∧
    (score_question db attempt aid merged acc q).wrong_count
        = (ScoringSpec.score_step sacc
            (present_answer ((dictGet merged q).bind id), m, key)).wrong ∧
    (score_question db attempt aid merged acc q).skipped_count
        = (ScoringSpec.score_step sacc
            (present_answer ((dictGet merged q).bind id), m, key)).skipped ∧
    (score_question db attempt aid merged acc q).total_marks
        = (ScoringSpec.score_step sacc
            (present_answer ((dictGet merged q).bind id), m, key)).total_marks ∧
    (score_question db attempt aid merged acc q).earned_marks
        = (ScoringSpec.score_step sacc
            (present_answer ((dictGet merged q).bind id), m, key)).earned_marks := by
  rw [resolve_canonical] at hq
  rw [score_question, ScoringSpec.score_step]
  cases hsel : (dictGet merged q).bind id with
  | none =>
    have hpa : present_answer (none : Option String) = none := rfl
    have ht : strTruthy (none : Option String) = false := rfl
    cases hcase : get_question_safe db q with
    | some q2 =>
      rw [hcase] at hq
      obtain ⟨hm, hkey⟩ : pyOrInt (some q2.marks) 1 = m ∧ q2.correct_option = key := by
        have := Option.some_inj.mp hq
        exact ⟨congrArg Prod.fst this, congrArg Prod.snd this⟩
      rw [if_neg (by simp)]
      dsimp only
      simp only [hpa, ht, Bool.false_and, Bool.false_eq_true, if_false, ite_false]
      refine ⟨by simpa using h1, by simpa using h2, by simp [h3], by simp [h4, hm], by simpa using h5⟩
    | none =>
      rw [hcase] at hq
      cases hgen : dictGet (orEmptyDict attempt.generated_questions) q with
      | none => rw [hgen] at hq; simp at hq
      | some g =>
        rw [hgen] at hq
        obtain ⟨hm, hkey⟩ : pyOrInt g.marks 1 = m ∧ pyStr g.correct_option = key := by
          have := Option.some_inj.mp hq
          exact ⟨congrArg Prod.fst this, congrArg Prod.snd this⟩
        rw [if_neg (by simp)]
        dsimp only
        simp only [hpa, ht, Bool.false_and, Bool.false_eq_true, if_false, ite_false]
        refine ⟨by simpa using h1, by simpa using h2, by simp [h3],
          by simp [h4, hm, hcase], by simpa using h5⟩
  | some s =>
    by_cases hse : s = ""
    · subst hse
      have hpa : present_answer (some "") = none := rfl
      have ht : strTruthy (some "") = false := by rfl
      cases hcase : get_question_safe db q with
      | some q2 =>
        rw [hcase] at hq
        obtain ⟨hm, hkey⟩ : pyOrInt (some q2.marks) 1 = m ∧ q2.correct_option = key := by
          have := Option.some_inj.mp hq
          exact ⟨congrArg Prod.fst this, congrArg Prod.snd this⟩
        rw [if_neg (by simp)]
        dsimp only
        simp only [hpa, ht, Bool.false_and, Bool.false_eq_true, if_false, ite_false]
        refine ⟨by simpa using h1, by simpa using h2, by simp [h3],
          by simp [h4, hm], by simpa using h5⟩
      | none =>
        rw [hcase] at hq
        cases hgen : dictGet (orEmptyDict attempt.generated_questions) q with
        | none => rw [hgen] at hq; simp at hq
        | some g =>
          rw [hgen] at hq
          obtain ⟨hm, hkey⟩ : pyOrInt g.marks 1 = m ∧ pyStr g.correct_option = key := by
            have := Option.some_inj.mp hq
            exact ⟨congrArg Prod.fst this, congrArg Prod.snd this⟩
          rw [if_neg (by simp)]
          dsimp only
          simp only [hpa, ht, Bool.false_and, Bool.false_eq_true, if_false, ite_false]
          refine ⟨by simpa using h1, by simpa using h2, by simp [h3],
            by simp [h4, hm, hcase], by simpa using h5⟩
    · have hpa : present_answer (some s) = some s := by
        rw [present_answer, if_pos (by simpa [strTruthy] using hse)]
      have ht : strTruthy (some s) = true := by simpa [strTruthy] using hse
      cases hcase : get_question_safe db q with
      | some q2 =>
        rw [hcase] at hq
        obtain ⟨hm, hkey⟩ : pyOrInt (some q2.marks) 1 = m ∧ q2.correct_option = key := by
          have := Option.some_inj.mp hq
          exact ⟨congrArg Prod.fst this, congrArg Prod.snd this⟩
        rw [if_neg (by simp)]
        dsimp only
        rw [hpa]
        have hkeystr : pyStr (some q2.correct_option) = key := hkey
        rw [hkeystr]
        simp only [ht, Bool.true_and, Option.getD_some]
        by_cases hcmp : (pyUpper s == pyUpper key) = true
        · simp only [hcmp, if_true, Bool.not_true, Bool.and_false, Bool.false_eq_true,
            if_false, ite_true, ite_false]
          refine ⟨by simp [h1], by simpa using h2, by simpa using h3,
            by simp [h4, hm], by simp [h5, hm]⟩
        · simp only [hcmp, Bool.false_eq_true, if_false, Bool.not_false, Bool.and_true,
            ite_true, ite_false]
          refine ⟨by simpa using h1, by simp [h2], by simpa using h3,
            by simp [h4, hm], by simpa using h5⟩
      | none =>
        rw [hcase] at hq
        cases hgen : dictGet (orEmptyDict attempt.generated_questions) q with
        | none => rw [hgen] at hq; simp at hq
        | some g =>
          rw [hgen] at hq
          obtain ⟨hm, hkey⟩ : pyOrInt g.marks 1 = m ∧ pyStr g.correct_option = key := by
            have := Option.some_inj.mp hq
            exact ⟨congrArg Prod.fst this, congrArg Prod.snd this⟩
          rw [if_neg (by simp)]
          dsimp only
          rw [hpa]
          simp only [Option.isSome_none, Bool.false_eq_true, if_false, Option.map_some',
            Option.getD_some]
          have hkeystr : pyStr g.correct_option = key := hkey
          rw [hkeystr]
          simp only [ht, Bool.true_and, Option.getD_some]
          by_cases hcmp : (pyUpper s == pyUpper key) = true
          · simp only [hcmp, if_true, Bool.not_true, Bool.and_false, Bool.false_eq_true,
              if_false, ite_true, ite_false]
            refine ⟨by simp [h1], by simpa using h2, by simpa using h3,
              by simp [h4, hm, hcase], by simp [h5, hm, hcase]⟩
          · simp only [hcmp, Bool.false_eq_true, if_false, Bool.not_false, Bool.and_true,
              ite_true, ite_false]
            refine ⟨by simpa using h1, by simp [h2], by simpa using h3,
              by simp [h4, hm, hcase], by simpa using h5⟩

/-- The scoring loop refines the spec's Scoring Engine fold over the
extracted items, for every related pair of starting accumulators. -/
theorem score_loop_refines_spec (db : DBState) (attempt : AptitudeAttempt)
    (aid : String) (merged : List (String × Option String)) :
    ∀ (qids : List String) (acc : ScoreAcc) (sacc : ScoringSpec.SpecScore),
      acc.correct_count = sacc.correct → acc.wrong_count = sacc.wrong →
      acc.skipped_count = sacc.skipped → acc.total_marks = sacc.total_marks →
      acc.earned_marks = sacc.earned_marks →
      ((qids.foldl (score_question db attempt aid merged) acc).correct_count
          = ((spec_items db attempt merged qids).foldl ScoringSpec.score_step sacc).correct ∧
        (qids.foldl (score_question db attempt aid merged) acc).wrong_count
          = ((spec_items db attempt merged qids).foldl ScoringSpec.score_step sacc).wrong ∧
        (qids.foldl (score_question db attempt aid merged) acc).skipped_count
          = ((spec_items db attempt merged qids).foldl ScoringSpec.score_step sacc).skipped ∧
        (qids.foldl (score_question db attempt aid merged) acc).total_marks
          = ((spec_items db attempt merged qids).foldl ScoringSpec.score_step sacc).total_marks ∧
        (qids.foldl (score_question db attempt aid merged) acc).earned_marks
          = ((spec_items db attempt merged qids).foldl ScoringSpec.score_step sacc).earned_marks) := by
  intro qids
  induction qids with
  | nil =>
    intro acc sacc h1 h2 h3 h4 h5
    exact ⟨h1, h2, h3, h4, h5⟩
  | cons q rest ih =>
    intro acc sacc h1 h2 h3 h4 h5
    rw [List.foldl_cons]
    cases hq : resolve_canonical db attempt q with
    | none =>
      have hitems : spec_items db attempt merged (q :: rest)
          = spec_items db attempt merged rest := by
        rw [spec_items, spec_items, List.filterMap_cons, hq]
        rfl
      rw [hitems, score_question_unresolvable db attempt aid merged acc q hq]
      exact ih acc sacc h1 h2 h3 h4 h5
    | some mk =>
      have hitems : spec_items db attempt merged (q :: rest)
          = (present_answer ((dictGet merged q).bind id), mk.1, mk.2)
            :: spec_items db attempt merged rest := by
        rw [spec_items, spec_items, List.filterMap_cons, hq]
        rfl
      rw [hitems, List.foldl_cons]
      have hstep := score_question_matches_step db attempt aid merged acc sacc q
        mk.1 mk.2 (by rw [hq]) h1 h2 h3 h4 h5
      exact ih (score_question db attempt aid merged acc q)
        (ScoringSpec.score_step sacc (present_answer ((dictGet merged q).bind id), mk.1, mk.2))
        hstep.1 hstep.2.1 hstep.2.2.1 hstep.2.2.2.1 hstep.2.2.2.2

end AptitudeAttemptService

/-! ## Characterization of a permitted submit call -/

namespace AptitudeAttemptService

/-- A submit call on an owned, still-active attempt persists exactly the
field updates of `submit_update_fn` and the fresh detail rows, and returns
the completed row on sync success (the sync error propagates otherwise). -/
theorem submit_assessment_spec (now : Int) (db : DBState) (aid uid : String)
    (ans : List (String × Option String)) (t : Int) (attempt : AptitudeAttempt)
    (hfind : AptitudeAttemptRepositoryImpl.get_by_id db aid = some attempt)
    (howner : attempt.user_id = uid) (hactive : attempt.completed_at = none)
    (sync : Except String Unit) :
    submit_assessment now sync db aid uid ans t =
      (submit_post_db now db aid attempt ans,
       match sync with
       | .error e => .error e
       | .ok _ => .ok (some (submit_updated_attempt now db aid attempt ans))) := by
  have h2 : db.attempts.find? (fun x => x.id == aid) = some attempt := hfind
  have hneq : ¬ attempt.user_id ≠ uid := by simp [howner]
  have hcomp : ¬ attempt.completed_at ≠ none := by simp [hactive]
  rw [submit_assessment, hfind]
  simp only [submit_post_db, submit_updated_attempt, submit_update_fn, submit_acc,
    submit_question_ids, AptitudeAttemptRepositoryImpl.update, h2, if_neg hneq,
    if_neg hcomp]
  cases sync <;> rfl

end AptitudeAttemptService

/-! ## Properties of the active-attempt query -/

theorem foldl_latest_mem (l : List AptitudeAttempt) :
    ∀ (init : Option AptitudeAttempt) (a : AptitudeAttempt),
      l.foldl
        (fun acc x =>
          match acc with
          | none => some x
          | some b => if x.started_at > b.started_at then some x else some b)
        init = some a →
      a ∈ l ∨ init = some a := by
  induction l with
  | nil => intro init a h; exact Or.inr h
  | cons x rest ih =>
    intro init a h
    rw [List.foldl_cons] at h
    rcases ih _ a h with hmem | hinit
    · exact Or.inl (List.mem_cons_of_mem _ hmem)
    · cases init with
      | none =>
        simp only [Option.some_inj] at hinit
        exact Or.inl (hinit ▸ List.mem_cons_self x rest)
      | some b =>
        dsimp only at hinit
        by_cases hgt : x.started_at > b.started_at
        · rw [if_pos hgt] at hinit
          simp only [Option.some_inj] at hinit
          exact Or.inl (hinit ▸ List.mem_cons_self x rest)
        · rw [if_neg hgt] at hinit
          exact Or.inr hinit

/-- The attempt returned by `repo.get_active_attempt` is owned by the user,
not completed, and IN_PROGRESS. -/
theorem get_active_attempt_props (db : DBState) (uid : String)
    (a : AptitudeAttempt)
    (h : AptitudeAttemptRepositoryImpl.get_active_attempt db uid = some a) :
    a.user_id = uid ∧ a.completed_at = none ∧ a.status = AttemptStatus.IN_PROGRESS := by
  rw [AptitudeAttemptRepositoryImpl.get_active_attempt] at h
  rcases foldl_latest_mem _ _ _ h with hmem | hinit
  · have hp := List.of_mem_filter hmem
    simp only [Bool.and_eq_true, beq_iff_eq] at hp
    exact ⟨hp.1.1, hp.1.2, hp.2⟩
  · exact absurd hinit (by simp)

/-! ## Limit-map and zero-limit lemmas -/

theorem dictMem_iff_mem_keys (d : List (String × α)) (k : String) :
    dictMem d k = true ↔ k ∈ d.map Prod.fst := by
  rw [dictMem, List.any_eq_true]
  constructor
  · rintro ⟨p, hp, he⟩
    exact List.mem_map.mpr ⟨p, hp, by simpa using he⟩
  · intro hm
    rcases List.mem_map.mp hm with ⟨p, hp, he⟩
    exact ⟨p, hp, by simpa using he⟩

theorem dictGet_map_key_fn (L : String → α) :
    ∀ (qs : List String) (k : String), k ∈ qs →
      dictGet (qs.map (fun q => (q, L q))) k = some (L k) := by
  intro qs
  induction qs with
  | nil => intro k hk; simp at hk
  | cons q rest ih =>
    intro k hk
    rw [List.map_cons, dictGet_cons]
    by_cases hq : (q == k) = true
    · have hqe : q = k := by simpa using hq
      rw [if_pos hq, hqe]
    · have hk2 : k ∈ rest := by
        rcases List.mem_cons.mp hk with he | hm
        · exact absurd (beq_iff_eq.mpr he.symm) hq
        · exact hm
      rw [if_neg hq]
      exact ih k hk2

namespace AptitudeAttemptService

theorem limits_fold_eq (L : String → Int) :
    ∀ (qs : List String) (d0 : List (String × Int)),
      (∀ q ∈ qs, dictMem d0 q = false) → qs.Nodup →
      qs.foldl (fun limits qid => dictInsert limits qid (L qid)) d0
        = d0 ++ qs.map (fun q => (q, L q)) := by
  intro qs
  induction qs with
  | nil => intro d0 _ _; simp
  | cons q rest ih =>
    intro d0 hfresh hnd
    rw [List.foldl_cons,
      dictInsert_fresh d0 q (L q) (hfresh q (List.mem_cons_self q rest))]
    rw [ih (d0 ++ [(q, L q)]) ?hfresh2 (List.nodup_cons.mp hnd).2]
    · simp
    case hfresh2 =>
      intro r hr
      rw [dictMem_eq_isSome, dictGet_append]
      have h1 : dictGet d0 r = none :=
        dictGet_not_mem_none d0 r
          (by rw [hfresh r (List.mem_cons_of_mem _ hr)]; exact Bool.false_ne_true)
      have hqr : ¬ (q == r) = true := by
        simp only [beq_iff_eq]
        rintro rfl
        exact (List.nodup_cons.mp hnd).1 hr
      rw [h1]
      simp [dictGet_cons, hqr, dictGet_nil]

/-- `_build_question_time_limits` is the per-question limit map over the
frozen question order. -/
theorem build_question_time_limits_eq (db : DBState) (attempt : AptitudeAttempt)
    (qs : List String) (hq : attempt.question_ids = some qs) (hne : qs ≠ [])
    (hnd : qs.Nodup) :
    build_question_time_limits db attempt
      = qs.map (fun q => (q, question_limit db attempt q)) := by
  have htruthy : listTruthy attempt.question_ids = true := by
    rw [hq]; simpa [listTruthy] using hne
  rw [build_question_time_limits, if_neg (by simp [htruthy]), hq]
  have := limits_fold_eq (question_limit db attempt) qs [] (fun q _ => rfl) hnd
  simpa using this

/-- Under the same hypotheses, the `limits.get(qid) or 0` lookup is the
per-question limit itself. -/
theorem limit_lookup_eq (db : DBState) (attempt : AptitudeAttempt)
    (qs : List String) (hq : attempt.question_ids = some qs) (hne : qs ≠ [])
    (hnd : qs.Nodup) (q : String) (hmem : q ∈ qs) :
    limit_lookup db attempt q = question_limit db attempt q := by
  rw [limit_lookup, build_question_time_limits_eq db attempt qs hq hne hnd,
    dictGet_map_key_fn (question_limit db attempt) qs q hmem]
  rfl

theorem dl_spec_congr (L1 L2 : String → Int) :
    ∀ (e : Int) (qs : List String), (∀ q ∈ qs, L1 q = L2 q) →
      dl_spec L1 e qs = dl_spec L2 e qs := by
  intro e qs
  induction qs generalizing e with
  | nil => intro _; rfl
  | cons q rest ih =>
    intro h
    rw [dl_spec, dl_spec, h q (List.mem_cons_self q rest)]
    have hrest : ∀ r ∈ rest, L1 r = L2 r :=
      fun r hr => h r (List.mem_cons_of_mem _ hr)
    by_cases hz : L2 q ≤ 0
    · rw [if_pos hz, if_pos hz, ih e hrest]
    · rw [if_neg hz, if_neg hz, ih (e + L2 q) hrest]

/-- Dropping an entry with no deadline does not change the expiry
threshold. -/
theorem total_allowed_drop_none (A B : List (String × Option Int)) (q0 : String) :
    total_allowed (A ++ (q0, none) :: B) = total_allowed (A ++ B) := by
  rw [total_allowed, total_allowed, List.filterMap_append, List.filterMap_append,
    List.filterMap_cons]

end AptitudeAttemptService

/-! ## Claim theorems -/

open AptitudeAttemptService

/-- C1: the claim says `start_assessment`, invoked while the user already has
an IN_PROGRESS attempt, must reuse or reject and never create a second live
row. The code performs no such check on any path: on a store that already
holds one live attempt for user `u1`, the persistence step of
`start_assessment` succeeds and leaves two IN_PROGRESS rows for `u1`. -/
theorem C1_start_creates_second_in_progress_row :
    active_in_progress_count fixture_db "u1" = 1 ∧
    (AptitudeAttemptService.start_assessment_persist fixture_db "a2" "u1" none none
        AptitudeMode.TEST none 0 [fixture_brief]
        [(fixture_q1.id, ["C", "A", "B", "D"])] [] 100).2.isOk = true ∧
    active_in_progress_count
      (AptitudeAttemptService.start_assessment_persist fixture_db "a2" "u1" none none
        AptitudeMode.TEST none 0 [fixture_brief]
        [(fixture_q1.id, ["C", "A", "B", "D"])] [] 100).1 "u1" = 2 := by
  refine ⟨?_, ?_, ?_⟩ <;> rfl

/-- C9: the claim says a failing profile-score sync never fails the
submission. `submit_assessment` awaits `_sync_profile_aptitude_score` with no
exception guard, so when the sync step fails the whole submit call raises —
even though the attempt row was already persisted as COMPLETED and the detail
rows were written. The operation therefore does not return the completed
attempt, contradicting the claim. -/
theorem C9_profile_sync_failure_propagates :
    (AptitudeAttemptService.submit_assessment 103 (.error "profile sync failed")
        fixture_db "a1" "u1" [] 0).2 = .error "profile sync failed" ∧
    ((AptitudeAttemptRepositoryImpl.get_by_id
        (AptitudeAttemptService.submit_assessment 103 (.error "profile sync failed")
          fixture_db "a1" "u1" [] 0).1 "a1").map
      (fun a => (a.status, a.completed_at))) = some (AttemptStatus.COMPLETED, some 103) ∧
    ((AptitudeAttemptService.submit_assessment 103 (.error "profile sync failed")
        fixture_db "a1" "u1" [] 0).1.details.map (fun d => d.attempt_id)) = ["a1", "a1"] := by
  refine ⟨rfl, rfl, ?_⟩
  decide

/-- C2 counterexample: on a timed attempt whose single question carries an
explicit stored limit of 0, the effective limit list is `[0]`, so the claim
predicts the cumulative deadline `Σ l_i = 0` for that question and rejection
of any answer saved at `t > 0`. The code instead assigns the question no
deadline at all, and an autosave at elapsed `t = 5 > 0` is accepted and
stored. -/
theorem C2_counterexample_zero_limit :
    limit_lookup fixture_db_zero fixture_attempt_zero fixture_q0.id = 0 ∧
    dictGet (build_question_deadlines fixture_db_zero fixture_attempt_zero)
      fixture_q0.id = some none ∧
    (some none : Option (Option Int)) ≠ some (some 0) ∧
    (autosave_answers 105 fixture_db_zero "az" "u1"
      [(fixture_q0.id, some "A")]).2 = .ok true ∧
    dictGet
      (answers_in_db
        (autosave_answers 105 fixture_db_zero "az" "u1"
          [(fixture_q0.id, some "A")]).1 "az")
      fixture_q0.id = some (.dict { selected := some "A", saved_at := some 5 }) ∧
    ¬ ((5 : Int) ≤ 0) := by
  refine ⟨rfl, rfl, by decide, rfl, rfl, by decide⟩

/-- C2 (amended): in a timed-mode attempt with duplicate-free question ids
and nonnegative effective limits, every question with a positive effective
limit receives the cumulative deadline `Σ l_i for i=1..k`, and an answer at
elapsed time `t` is accepted (not dropped as late) iff `t ≤ deadline_k`;
questions with effective limit 0 receive no deadline (see the
counterexample). In untimed modes the autosave merge never rejects an answer
on time: the call succeeds and every incoming answer's key ends up stored. -/
theorem C2_cumulative_deadline_schedule (db : DBState) (attempt : AptitudeAttempt)
    (qs : List String) (hq : attempt.question_ids = some qs) (hne : qs ≠ [])
    (hnd : qs.Nodup) (htimed : is_timed_mode attempt.mode = true)
    (hpos : ∀ q ∈ qs, 0 ≤ limit_lookup db attempt q) :
    (∀ (k : Nat) (hk : k < qs.length),
      0 < limit_lookup db attempt (qs.get ⟨k, hk⟩) →
        dictGet (build_question_deadlines db attempt) (qs.get ⟨k, hk⟩)
          = some (some (((qs.take (k + 1)).map (limit_lookup db attempt)).sum)) ∧
        ∀ t : Int,
          past_deadline (build_question_deadlines db attempt) (qs.get ⟨k, hk⟩) t = false
            ↔ t ≤ ((qs.take (k + 1)).map (limit_lookup db attempt)).sum) ∧
    (∀ (now : Int) (db2 : DBState) (a_id u : String)
        (ans : List (String × Option String)) (attempt2 : AptitudeAttempt),
      AptitudeAttemptRepositoryImpl.get_by_id db2 a_id = some attempt2 →
      attempt2.user_id = u → attempt2.completed_at = none →
      is_timed_mode attempt2.mode = false →
      (autosave_answers now db2 a_id u ans).2 = .ok true ∧
      ∀ p ∈ ans,
        dictMem (answers_in_db (autosave_answers now db2 a_id u ans).1 a_id) p.1
          = true) := by
  have hbd : build_question_deadlines db attempt = dl_spec (limit_lookup db attempt) 0 qs := by
    rw [build_question_deadlines_eq_dl_spec db attempt qs hq hne hnd]
    rfl
  constructor
  · intro k hk hposk
    have hd := dictGet_dl_spec_get (limit_lookup db attempt) qs 0 k hk hnd hpos
    rw [if_neg (not_le.mpr hposk)] at hd
    have hlen : k < (qs.take (k + 1)).length := by
      rw [List.length_take]
      exact lt_min (Nat.lt_succ_self k) hk
    have hgt : (qs.take (k + 1)).get ⟨k, hlen⟩ = qs.get ⟨k, hk⟩ := by
      simp [List.get_eq_getElem, List.getElem_take]
    have htk : qs.get ⟨k, hk⟩ ∈ qs.take (k + 1) := by
      rw [← hgt]
      exact (qs.take (k + 1)).get_mem _ _
    have hS : 0 < ((qs.take (k + 1)).map (limit_lookup db attempt)).sum := by
      have hle : limit_lookup db attempt (qs.get ⟨k, hk⟩)
          ≤ ((qs.take (k + 1)).map (limit_lookup db attempt)).sum := by
        apply List.single_le_sum
        · intro x hx
          rcases List.mem_map.mp hx with ⟨q2, hq2, rfl⟩
          exact hpos q2 (List.mem_of_mem_take hq2)
        · exact List.mem_map.mpr ⟨_, htk, rfl⟩
      omega
    refine ⟨by rw [hbd, hd]; simp, ?_⟩
    intro t
    rw [past_deadline, hbd, hd]
    simp only [zero_add, Option.some_bind, id_eq, Bool.and_eq_false_iff,
      decide_eq_false_iff_not, not_not, not_lt]
    omega
  · intro now db2 a_id u ans attempt2 hfind howner hactive huntimed
    have hneq : ¬ attempt2.user_id ≠ u := by simp [howner]
    have hcomp : ¬ attempt2.completed_at ≠ none := by simp [hactive]
    have hguard : (is_timed_mode attempt2.mode && listTruthy attempt2.question_ids) = false := by
      rw [huntimed]; rfl
    have hcall :
        autosave_answers now db2 a_id u ans =
          ((AptitudeAttemptRepositoryImpl.update db2 a_id
            (fun a =>
              { a with
                answers := some (ans.foldl
                  (autosave_step [] (now - attempt2.started_at))
                  (orEmptyDict attempt2.answers)) })).1, .ok true) := by
      rw [autosave_answers, hfind]
      simp only [hneq, hcomp, hguard, if_neg, ite_false, Bool.false_eq_true]
    have hupd := get_by_id_update db2 a_id
      (fun a =>
        { a with
          answers := some (ans.foldl
            (autosave_step [] (now - attempt2.started_at))
            (orEmptyDict attempt2.answers)) })
      attempt2 rfl hfind
    constructor
    · rw [hcall]
    · intro p hp
      rw [hcall, answers_in_db, hupd.2.1]
      apply autosave_fold_mem_of_in_time
      · exact hp
      · rfl

/-- Witness for the amended C2 theorem at the two-question timed fixture
(effective limits 3 and 60): the second question's cumulative deadline is
3 + 60 = 63 and an answer at elapsed 63 is still accepted. -/
theorem C2_cumulative_deadline_schedule_witness :
    dictGet (build_question_deadlines fixture_db fixture_attempt) fixture_q2.id
      = some (some 63) ∧
    past_deadline (build_question_deadlines fixture_db fixture_attempt)
      fixture_q2.id 63 = false := by
  have h := C2_cumulative_deadline_schedule fixture_db fixture_attempt
    [fixture_q1.id, fixture_q2.id] rfl (by decide) (by decide) rfl (by decide)
  have h2 := h.1 1 (by decide) (by decide)
  refine ⟨?_, ?_⟩
  · have := h2.1
    simpa using this
  · have := (h2.2 63).mpr (by decide)
    simpa using this

/-- C6: the persisted outcome of a submit call is independent of the
client-reported seconds argument — two submit calls identical in everything
but `time_taken_seconds` produce identical stores and results — and a
permitted submit persists `now - started_at` as the elapsed time. -/
theorem C6_client_seconds_not_trusted :
    (∀ (now : Int) (sync : Except String Unit) (db : DBState) (aid uid : String)
        (ans : List (String × Option String)) (t1 t2 : Int),
      submit_assessment now sync db aid uid ans t1
        = submit_assessment now sync db aid uid ans t2) ∧
    (∀ (now : Int) (db : DBState) (aid uid : String)
        (ans : List (String × Option String)) (t : Int) (attempt : AptitudeAttempt),
      AptitudeAttemptRepositoryImpl.get_by_id db aid = some attempt →
      attempt.user_id = uid → attempt.completed_at = none →
      (submit_assessment now (.ok ()) db aid uid ans t).2
        = .ok (some (submit_updated_attempt now db aid attempt ans)) ∧
      (submit_updated_attempt now db aid attempt ans).time_taken_seconds
        = now - attempt.started_at) := by
  constructor
  · intro now sync db aid uid ans t1 t2
    rfl
  · intro now db aid uid ans t attempt hfind howner hactive
    constructor
    · rw [submit_assessment_spec now db aid uid ans t attempt hfind howner hactive (.ok ())]
    · rfl

/-- Witness for C6 at the fixture: the persisted elapsed time is the
server-measured 103 − 100 = 3 seconds, whatever the client reported. -/
theorem C6_client_seconds_not_trusted_witness :
    (submit_assessment 103 (.ok ()) fixture_db "a1" "u1" [] 999999).2
      = .ok (some (submit_updated_attempt 103 fixture_db "a1" fixture_attempt [])) ∧
    (submit_updated_attempt 103 fixture_db "a1" fixture_attempt []).time_taken_seconds
      = 3 := by
  have h := C6_client_seconds_not_trusted.2 103 fixture_db "a1" "u1" [] 999999
    fixture_attempt rfl rfl rfl
  exact ⟨h.1, h.2.trans (by decide)⟩

/-- C5: reading the active attempt of a timed-mode attempt whose
server-measured elapsed time exceeds the maximum scheduled deadline
auto-submits it server-side (the store becomes the submit post-store, the row
COMPLETED) and surfaces the `Session expired` error instead of returning the
attempt. -/
theorem C5_expired_read_auto_submits (now : Int) (db : DBState) (uid : String)
    (attempt : AptitudeAttempt)
    (hact : AptitudeAttemptRepositoryImpl.get_active_attempt db uid = some attempt)
    (hfind : AptitudeAttemptRepositoryImpl.get_by_id db attempt.id = some attempt)
    (htimed : is_timed_mode attempt.mode = true)
    (hqid : listTruthy attempt.question_ids = true)
    (hta : 0 < total_allowed (build_question_deadlines db attempt))
    (hexp : total_allowed (build_question_deadlines db attempt) < now - attempt.started_at) :
    get_active_attempt now (.ok ()) db uid
      = (submit_post_db now db attempt.id attempt [], .error "Session expired") ∧
    (AptitudeAttemptRepositoryImpl.get_by_id
        (get_active_attempt now (.ok ()) db uid).1 attempt.id).map
      (fun a => (a.status, a.completed_at))
      = some (AttemptStatus.COMPLETED, some now) := by
  have hprops := get_active_attempt_props db uid attempt hact
  have hcall : get_active_attempt now (.ok ()) db uid
      = (submit_post_db now db attempt.id attempt [], .error "Session expired") := by
    rw [get_active_attempt, hact]
    dsimp only
    have hexpired :
        (if is_timed_mode attempt.mode && listTruthy attempt.question_ids then
          decide (total_allowed (build_question_deadlines db attempt) > 0)
            && decide (now - attempt.started_at > total_allowed (build_question_deadlines db attempt))
        else false) = true := by
      rw [htimed, hqid]
      simp [hta, hexp]
    simp only [hexpired]
    rw [submit_assessment_spec now db attempt.id uid [] (now - attempt.started_at)
      attempt hfind hprops.1 hprops.2.1 (.ok ())]
    simp
  refine ⟨hcall, ?_⟩
  rw [hcall]
  have hupd := get_by_id_update db attempt.id
    (submit_update_fn now db attempt.id attempt []) attempt rfl hfind
  have hpost : AptitudeAttemptRepositoryImpl.get_by_id
      (submit_post_db now db attempt.id attempt []) attempt.id
      = some (submit_update_fn now db attempt.id attempt [] attempt) := by
    rw [submit_post_db]
    exact hupd.2.1
  rw [hpost]
  rfl

/-- Witness for C5: at elapsed 100 (deadline budget 63) the fixture attempt
is auto-completed and the read raises `Session expired`. -/
theorem C5_expired_read_auto_submits_witness :
    get_active_attempt 200 (.ok ()) fixture_db "u1"
      = (submit_post_db 200 fixture_db "a1" fixture_attempt [], .error "Session expired") ∧
    (AptitudeAttemptRepositoryImpl.get_by_id
        (get_active_attempt 200 (.ok ()) fixture_db "u1").1 "a1").map
      (fun a => (a.status, a.completed_at))
      = some (AttemptStatus.COMPLETED, some 200) :=
  C5_expired_read_auto_submits 200 fixture_db "u1" fixture_attempt rfl rfl rfl rfl
    (by decide) (by decide)

/-- C7: applying the stored per-question permutation to the canonical option
map reproduces exactly the display mapping produced when the permutation was
created, for every option map and every shuffle outcome — so every resume
re-derives the same display order as the start response. -/
theorem C7_option_order_stable (options : List (String × String))
    (keys : List String) (hperm : keys.Perm (options.map Prod.fst)) :
    apply_option_order options (some (shuffle_options options keys).2)
      = (shuffle_options options keys).1 := by
  cases hk : keys with
  | nil =>
    have hmap : options.map Prod.fst = [] := (List.Perm.nil_eq (hk ▸ hperm)).symm
    have hopts : options = [] := List.map_eq_nil_iff.mp hmap
    rw [hopts]
    rfl
  | cons a as =>
    rw [apply_option_order, shuffle_options]
    rw [if_neg (by simp)]

/-- Witness for C7 on the fixture options with the stored order
`["C", "A", "B", "D"]`. -/
theorem C7_option_order_stable_witness :
    apply_option_order fixture_q1.options
        (some (shuffle_options fixture_q1.options ["C", "A", "B", "D"]).2)
      = (shuffle_options fixture_q1.options ["C", "A", "B", "D"]).1 :=
  C7_option_order_stable fixture_q1.options ["C", "A", "B", "D"] (by decide)

/-- C4: on a timed, still-live attempt, an autosave whose answer for question
`Q` arrives past `Q`'s cumulative deadline succeeds without error, does not
store that answer (a previously unanswered `Q` stays absent, so a resume shows
`Q` unanswered), the error outcome of the call never depends on the submitted
answer map, and every in-time answer is stored stamped with the
server-measured elapsed seconds. -/
theorem C4_late_autosave_silently_dropped (now : Int) (db : DBState)
    (aid uid : String) (ans : List (String × Option String))
    (attempt : AptitudeAttempt) (Q : String) (dQ : Int)
    (hfind : AptitudeAttemptRepositoryImpl.get_by_id db aid = some attempt)
    (howner : attempt.user_id = uid) (hactive : attempt.completed_at = none)
    (htimed : is_timed_mode attempt.mode = true)
    (hqids : listTruthy attempt.question_ids = true)
    (hnotexp : ¬ (0 < total_allowed (build_question_deadlines db attempt) ∧
      total_allowed (build_question_deadlines db attempt) < now - attempt.started_at))
    (hdl : dictGet (build_question_deadlines db attempt) Q = some (some dQ))
    (hdQ : dQ ≠ 0) (hlate : dQ < now - attempt.started_at)
    (hQold : dictGet (orEmptyDict attempt.answers) Q = none)
    (hnodup : (ans.map Prod.fst).Nodup) :
    (autosave_answers now db aid uid ans).2 = .ok true ∧
    (∀ ans2 : List (String × Option String),
      ((autosave_answers now db aid uid ans).2).isOk
        = ((autosave_answers now db aid uid ans2).2).isOk) ∧
    dictGet (answers_in_db (autosave_answers now db aid uid ans).1 aid) Q = none ∧
    dictGet (user_answer_view
      (some (answers_in_db (autosave_answers now db aid uid ans).1 aid))) Q = none ∧
    (∀ p ∈ ans,
      past_deadline (build_question_deadlines db attempt) p.1 (now - attempt.started_at)
          = false →
      ∃ dct : AnswerDict,
        dictGet (answers_in_db (autosave_answers now db aid uid ans).1 aid) p.1
            = some (.dict dct) ∧
        dct.selected = p.2 ∧ dct.saved_at = some (now - attempt.started_at)) := by
  have hneq : ¬ attempt.user_id ≠ uid := by simp [howner]
  have hcomp : ¬ attempt.completed_at ≠ none := by simp [hactive]
  have hguard : (is_timed_mode attempt.mode && listTruthy attempt.question_ids) = true := by
    rw [htimed, hqids]; rfl
  have hexpired :
      (decide (total_allowed (build_question_deadlines db attempt) > 0)
        && decide (now - attempt.started_at
          > total_allowed (build_question_deadlines db attempt))) = false := by
    simp only [Bool.and_eq_false_iff, decide_eq_false_iff_not, not_lt]
    omega
  have hcall : ∀ ans' : List (String × Option String),
      autosave_answers now db aid uid ans' =
        ((AptitudeAttemptRepositoryImpl.update db aid
          (fun a =>
            { a with
              answers := some (ans'.foldl
                (autosave_step (build_question_deadlines db attempt)
                  (now - attempt.started_at))
                (orEmptyDict attempt.answers)) })).1, .ok true) := by
    intro ans'
    rw [autosave_answers, hfind]
    simp only [hneq, hcomp, hguard, if_neg, ite_false, ite_true, Bool.false_eq_true,
      eq_self_iff_true, if_true, hexpired]
  have hupd := fun (ans' : List (String × Option String)) =>
    get_by_id_update db aid
      (fun a =>
        { a with
          answers := some (ans'.foldl
            (autosave_step (build_question_deadlines db attempt)
              (now - attempt.started_at))
            (orEmptyDict attempt.answers)) })
      attempt rfl hfind
  have hansdb : ∀ ans' : List (String × Option String),
      answers_in_db (autosave_answers now db aid uid ans').1 aid =
        ans'.foldl
          (autosave_step (build_question_deadlines db attempt)
            (now - attempt.started_at))
          (orEmptyDict attempt.answers) := by
    intro ans'
    rw [hcall ans', answers_in_db, (hupd ans').2.1]
    rfl
  have hskipQ : past_deadline (build_question_deadlines db attempt) Q
      (now - attempt.started_at) = true := by
    rw [past_deadline, hdl]
    simp only [Option.some_bind, id_eq]
    simp [hdQ, hlate]
  have hQabsQ : dictGet (answers_in_db (autosave_answers now db aid uid ans).1 aid) Q
      = none := by
    rw [hansdb ans,
      autosave_fold_get_skipped (build_question_deadlines db attempt)
        (now - attempt.started_at) Q hskipQ ans (orEmptyDict attempt.answers),
      hQold]
  refine ⟨by rw [hcall ans], ?_, hQabsQ, ?_, ?_⟩
  · intro ans2
    rw [hcall ans, hcall ans2]
  · have hview : ∀ (l : List (String × StoredAnswer)) (k2 : String),
        dictGet (user_answer_view (some l)) k2
          = (dictGet l k2).map (fun sa =>
              match sa with
              | StoredAnswer.dict d => d.selected
              | StoredAnswer.raw v => v) := by
      intro l k2
      induction l with
      | nil => rfl
      | cons p rest ih =>
        obtain ⟨k1, sa⟩ := p
        have hcons : user_answer_view (some ((k1, sa) :: rest))
            = (match sa with
               | StoredAnswer.dict d => (k1, d.selected)
               | StoredAnswer.raw v => (k1, v)) :: user_answer_view (some rest) := by
          cases sa <;> rfl
        rw [hcons]
        cases sa with
        | dict d =>
          rw [dictGet_cons, dictGet_cons]
          by_cases hk : (k1 == k2) = true
          · simp [hk]
          · simp only [hk, Bool.false_eq_true, if_false, ih]
        | raw v =>
          rw [dictGet_cons, dictGet_cons]
          by_cases hk : (k1 == k2) = true
          · simp [hk]
          · simp only [hk, Bool.false_eq_true, if_false, ih]
    rw [hview, hQabsQ]
    rfl
  · intro p hp hok
    rw [hansdb ans]
    rw [autosave_fold_get_stored (build_question_deadlines db attempt)
      (now - attempt.started_at) ans (orEmptyDict attempt.answers) p.1 p.2 hnodup
      (by simpa using hp) hok]
    exact ⟨_, rfl, rfl, rfl⟩

/-- Witness for C4 at the fixture: at elapsed 10s, the answer for the
3-second question q1 is dropped while the answer for the 63-second-deadline
question q2 is stored stamped `saved_at = 10`; the call returns ok. -/
theorem C4_late_autosave_silently_dropped_witness :
    (autosave_answers 110 fixture_db "a1" "u1"
      [(fixture_q1.id, some "B"), (fixture_q2.id, some "C")]).2 = .ok true ∧
    dictGet (answers_in_db (autosave_answers 110 fixture_db "a1" "u1"
      [(fixture_q1.id, some "B"), (fixture_q2.id, some "C")]).1 "a1")
      fixture_q1.id = none ∧
    (∃ dct : AnswerDict,
      dictGet (answers_in_db (autosave_answers 110 fixture_db "a1" "u1"
        [(fixture_q1.id, some "B"), (fixture_q2.id, some "C")]).1 "a1")
        fixture_q2.id = some (.dict dct) ∧
      dct.selected = some "C" ∧ dct.saved_at = some 10) := by
  have h := C4_late_autosave_silently_dropped 110 fixture_db "a1" "u1"
    [(fixture_q1.id, some "B"), (fixture_q2.id, some "C")]
    fixture_attempt fixture_q1.id 3 rfl rfl rfl rfl rfl (by decide) (by decide)
    (by decide) (by decide) rfl (by decide)
  refine ⟨h.1, h.2.2.1, ?_⟩
  have h5 := h.2.2.2.2 (fixture_q2.id, some "C") (by decide) (by decide)
  exact h5

/-- C8: for a permitted submit over an attempt whose frozen question
references all resolve (bank row or generated payload) and whose frozen
`total_questions` is the length of the frozen question-id list, the persisted
counts satisfy `correct + wrong + skipped = total_questions` on the completed
row. -/
theorem C8_counts_round_trip (now : Int) (db : DBState) (aid uid : String)
    (ans : List (String × Option String)) (t : Int) (attempt : AptitudeAttempt)
    (qs : List String)
    (hfind : AptitudeAttemptRepositoryImpl.get_by_id db aid = some attempt)
    (howner : attempt.user_id = uid) (hactive : attempt.completed_at = none)
    (hqids : attempt.question_ids = some qs) (hne : qs ≠ [])
    (hres : ∀ q ∈ qs, (get_question_safe db q).isSome = true ∨
      (dictGet (orEmptyDict attempt.generated_questions) q).isSome = true)
    (htotal : attempt.total_questions = qs.length) :
    (submit_assessment now (.ok ()) db aid uid ans t).2
      = .ok (some (submit_updated_attempt now db aid attempt ans)) ∧
    (submit_updated_attempt now db aid attempt ans).correct_answers
        + (submit_updated_attempt now db aid attempt ans).wrong_answers
        + (submit_updated_attempt now db aid attempt ans).skipped
      = (submit_updated_attempt now db aid attempt ans).total_questions := by
  constructor
  · rw [submit_assessment_spec now db aid uid ans t attempt hfind howner hactive (.ok ())]
  · have htruthy : listTruthy attempt.question_ids = true := by
      rw [hqids]; simpa [listTruthy] using hne
    have hqlist : submit_question_ids attempt
        (merged_answers_for_submit now db attempt ans) = qs := by
      rw [submit_question_ids, if_pos htruthy, hqids]
      rfl
    have hcounts := score_loop_counts db attempt aid
      (merged_answers_for_submit now db attempt ans) qs {} hres
    have hupdtotal : (submit_updated_attempt now db aid attempt ans).total_questions
        = attempt.total_questions := rfl
    have hc : (submit_updated_attempt now db aid attempt ans).correct_answers
        = (submit_acc now db aid attempt ans).correct_count := rfl
    have hw : (submit_updated_attempt now db aid attempt ans).wrong_answers
        = (submit_acc now db aid attempt ans).wrong_count := rfl
    have hs : (submit_updated_attempt now db aid attempt ans).skipped
        = (submit_acc now db aid attempt ans).skipped_count := rfl
    rw [hc, hw, hs, hupdtotal, htotal]
    have hacc : submit_acc now db aid attempt ans
        = List.foldl
            (score_question db attempt aid (merged_answers_for_submit now db attempt ans))
            {} qs := by
      show score_loop db attempt aid (merged_answers_for_submit now db attempt ans)
          (submit_question_ids attempt (merged_answers_for_submit now db attempt ans)) = _
      rw [hqlist, score_loop]
    rw [hacc]
    have hz1 : ({} : ScoreAcc).correct_count = 0 := rfl
    have hz2 : ({} : ScoreAcc).wrong_count = 0 := rfl
    have hz3 : ({} : ScoreAcc).skipped_count = 0 := rfl
    rw [hz1, hz2, hz3] at hcounts
    omega

/-- Witness for C8 at the fixture: submitting the two-question attempt with
no answers yields counts 0 + 0 + 2 = 2 = total_questions. -/
theorem C8_counts_round_trip_witness :
    (submit_assessment 103 (.ok ()) fixture_db "a1" "u1" [] 0).2
      = .ok (some (submit_updated_attempt 103 fixture_db "a1" fixture_attempt [])) ∧
    (submit_updated_attempt 103 fixture_db "a1" fixture_attempt []).correct_answers
        + (submit_updated_attempt 103 fixture_db "a1" fixture_attempt []).wrong_answers
        + (submit_updated_attempt 103 fixture_db "a1" fixture_attempt []).skipped
      = (submit_updated_attempt 103 fixture_db "a1" fixture_attempt []).total_questions :=
  C8_counts_round_trip 103 fixture_db "a1" "u1" [] 0 fixture_attempt
    [fixture_q1.id, fixture_q2.id] rfl rfl rfl rfl (by decide)
    (by intro q hq; fin_cases hq <;> exact Or.inl (by decide)) rfl

/-- C3: the outcome a permitted submit persists is exactly the spec's Scoring
Engine run over the resolvable questions in frozen order — counters match and
the final score is `round(earned / total * 100, 1)` when total marks are
positive and 0 otherwise — and the Scenario D instance holds: submitting an
empty answer map on the ten-question, all-marks-1 attempt yields score 0 with
10 skipped, 0 correct, 0 wrong. -/
theorem C3_scoring_refines_spec :
    (∀ (now : Int) (db : DBState) (aid uid : String)
        (ans : List (String × Option String)) (t : Int) (attempt : AptitudeAttempt),
      AptitudeAttemptRepositoryImpl.get_by_id db aid = some attempt →
      attempt.user_id = uid → attempt.completed_at = none →
      (submit_assessment now (.ok ()) db aid uid ans t).2
          = .ok (some (submit_updated_attempt now db aid attempt ans)) ∧
      (submit_updated_attempt now db aid attempt ans).correct_answers
          = (ScoringSpec.score_all (spec_items db attempt
              (merged_answers_for_submit now db attempt ans)
              (submit_question_ids attempt
                (merged_answers_for_submit now db attempt ans)))).correct ∧
      (submit_updated_attempt now db aid attempt ans).wrong_answers
          = (ScoringSpec.score_all (spec_items db attempt
              (merged_answers_for_submit now db attempt ans)
              (submit_question_ids attempt
                (merged_answers_for_submit now db attempt ans)))).wrong ∧
      (submit_updated_attempt now db aid attempt ans).skipped
          = (ScoringSpec.score_all (spec_items db attempt
              (merged_answers_for_submit now db attempt ans)
              (submit_question_ids attempt
                (merged_answers_for_submit now db attempt ans)))).skipped ∧
      (submit_updated_attempt now db aid attempt ans).score
          = ScoringSpec.final_score (ScoringSpec.score_all (spec_items db attempt
              (merged_answers_for_submit now db attempt ans)
              (submit_question_ids attempt
                (merged_answers_for_submit now db attempt ans))))) ∧
    (((submit_assessment 103 (.ok ()) fixture_db10 "a10" "u1" [] 50).2.map
        (Option.map (fun a => (a.correct_answers, a.wrong_answers, a.skipped)))
      = .ok (some (0, 0, 10))) ∧
     ((submit_assessment 103 (.ok ()) fixture_db10 "a10" "u1" [] 50).2.map
        (Option.map (fun a => a.score))
      = .ok (some (0 : ℚ)))) := by
  constructor
  · intro now db aid uid ans t attempt hfind howner hactive
    have hrel := score_loop_refines_spec db attempt aid
      (merged_answers_for_submit now db attempt ans)
      (submit_question_ids attempt (merged_answers_for_submit now db attempt ans))
      {} {} rfl rfl rfl rfl rfl
    have hacc : submit_acc now db aid attempt ans
        = (submit_question_ids attempt (merged_answers_for_submit now db attempt ans)).foldl
            (score_question db attempt aid (merged_answers_for_submit now db attempt ans))
            {} := rfl
    have hall : ScoringSpec.score_all (spec_items db attempt
        (merged_answers_for_submit now db attempt ans)
        (submit_question_ids attempt (merged_answers_for_submit now db attempt ans)))
        = (spec_items db attempt (merged_answers_for_submit now db attempt ans)
            (submit_question_ids attempt
              (merged_answers_for_submit now db attempt ans))).foldl
            ScoringSpec.score_step {} := rfl
    refine ⟨?_, ?_, ?_, ?_, ?_⟩
    · rw [submit_assessment_spec now db aid uid ans t attempt hfind howner hactive (.ok ())]
    · show (submit_acc now db aid attempt ans).correct_count = _
      rw [hacc, hall]
      exact hrel.1
    · show (submit_acc now db aid attempt ans).wrong_count = _
      rw [hacc, hall]
      exact hrel.2.1
    · show (submit_acc now db aid attempt ans).skipped_count = _
      rw [hacc, hall]
      exact hrel.2.2.1
    · show pyRound1
          (if (submit_acc now db aid attempt ans).total_marks > 0 then
            ((submit_acc now db aid attempt ans).earned_marks : ℚ)
              / ((submit_acc now db aid attempt ans).total_marks : ℚ) * 100
          else 0) = _
      rw [ScoringSpec.final_score]
      have hT : (submit_acc now db aid attempt ans).total_marks
          = (ScoringSpec.score_all (spec_items db attempt
              (merged_answers_for_submit now db attempt ans)
              (submit_question_ids attempt
                (merged_answers_for_submit now db attempt ans)))).total_marks := by
        rw [hacc, hall]
        exact hrel.2.2.2.1
      have hE : (submit_acc now db aid attempt ans).earned_marks
          = (ScoringSpec.score_all (spec_items db attempt
              (merged_answers_for_submit now db attempt ans)
              (submit_question_ids attempt
                (merged_answers_for_submit now db attempt ans)))).earned_marks := by
        rw [hacc, hall]
        exact hrel.2.2.2.2
      rw [← hT, ← hE]
      by_cases hTpos : (submit_acc now db aid attempt ans).total_marks > 0
      · rw [if_pos hTpos, if_pos hTpos]
      · rw [if_neg hTpos, if_neg hTpos]
        exact pyRound1_zero
  · constructor
    · rfl
    · have h0 : (submit_assessment 103 (.ok ()) fixture_db10 "a10" "u1" [] 50).2.map
          (Option.map (fun a => a.score))
          = .ok (some (pyRound1 ((((0 : Int) : ℚ)) / (((10 : Int) : ℚ)) * 100))) := rfl
      rw [h0]
      have : ((((0 : Int) : ℚ)) / (((10 : Int) : ℚ)) * 100) = 0 := by norm_num
      rw [this, pyRound1_zero]

/-- Witness for C3's universally quantified refinement at the two-question
fixture with the answer `b` for question q1. -/
theorem C3_scoring_refines_spec_witness :
    (submit_assessment 103 (.ok ()) fixture_db "a1" "u1"
        [(fixture_q1.id, some "b")] 0).2
      = .ok (some (submit_updated_attempt 103 fixture_db "a1" fixture_attempt
          [(fixture_q1.id, some "b")])) ∧
    (submit_updated_attempt 103 fixture_db "a1" fixture_attempt
        [(fixture_q1.id, some "b")]).score
      = ScoringSpec.final_score (ScoringSpec.score_all (spec_items fixture_db
          fixture_attempt
          (merged_answers_for_submit 103 fixture_db fixture_attempt
            [(fixture_q1.id, some "b")])
          (submit_question_ids fixture_attempt
            (merged_answers_for_submit 103 fixture_db fixture_attempt
              [(fixture_q1.id, some "b")])))) := by
  have h := C3_scoring_refines_spec.1 103 fixture_db "a1" "u1"
    [(fixture_q1.id, some "b")] 0 fixture_attempt rfl rfl rfl
  exact ⟨h.1, h.2.2.2.2⟩

/-- C10: in a timed-mode attempt, a question `q0` whose stored bank-row time
limit is explicitly 0 (not resolved from a generated payload, and passed
through `_effective_time_limit` unchanged because only a missing limit is
defaulted to 60) receives no deadline at all: (a) the deadline schedule maps
`q0` to `None`; (b) every other question's deadline is exactly what it would
be if `q0` were absent from the attempt, so `q0` contributes nothing to any
later cumulative deadline; (c) the session-expiry threshold
(`max` of the truthy deadlines) is likewise unchanged by removing `q0`; and
(d) the shared late-answer guard `if deadline and t > deadline` — used by
`autosave_answers` to drop answers and by `submit_assessment` to null
`saved_at` — is false for `q0` at every elapsed time, so its answers are
never dropped or nulled as late. -/
theorem C10_zero_limit_no_deadline
    (db : DBState) (attempt : AptitudeAttempt)
    (xs ys : List String) (q0 : String) (qrow : AptitudeQuestion)
    (htimed : is_timed_mode attempt.mode = true)
    (hq : attempt.question_ids = some (xs ++ q0 :: ys))
    (hnd : (xs ++ q0 :: ys).Nodup)
    (hgen : (optDictTruthy attempt.generated_questions
        && dictMem (orEmptyDict attempt.generated_questions) q0) = false)
    (huuid : is_uuid q0 = true)
    (hrow : AptitudeQuestionRepositoryImpl.get_by_id db q0 = some qrow)
    (hzero : qrow.time_limit_seconds = some 0) :
    dictGet (build_question_deadlines db attempt) q0 = some none
    ∧ (∀ y ∈ xs ++ ys,
        dictGet (build_question_deadlines db attempt) y
          = dictGet (build_question_deadlines db
              { attempt with question_ids := some (xs ++ ys) }) y)
    ∧ total_allowed (build_question_deadlines db attempt)
        = total_allowed (build_question_deadlines db
            { attempt with question_ids := some (xs ++ ys) })
    ∧ (∀ t : Int,
        past_deadline (build_question_deadlines db attempt) q0 t = false) := by
  have hQL : question_limit db attempt q0 = 0 := by
    rw [question_limit]
    simp only [hgen, Bool.false_eq_true, if_false, huuid, if_true, hrow, hzero,
      effective_time_limit]
    simp
  have hle : question_limit db attempt q0 ≤ 0 := hQL.le
  have hne1 : xs ++ q0 :: ys ≠ [] := by simp
  have hbd1 : build_question_deadlines db attempt
      = dl_spec (question_limit db attempt) 0 (xs ++ q0 :: ys) := by
    rw [build_question_deadlines_eq_dl_spec db attempt _ hq hne1 hnd]
    exact dl_spec_congr _ _ 0 _ (fun q hqm =>
      limit_lookup_eq db attempt _ hq hne1 hnd q hqm)
  have hnd' := List.nodup_append.mp hnd
  have hq0xs : q0 ∉ xs := fun h => hnd'.2.2 h (List.mem_cons_self q0 ys)
  have hq0ys : q0 ∉ ys := (List.nodup_cons.mp hnd'.2.1).1
  have hnd2 : (xs ++ ys).Nodup := by
    have hsub : (xs ++ ys).Sublist (xs ++ q0 :: ys) :=
      List.Sublist.append_left (List.sublist_cons_self q0 ys) xs
    exact hnd.sublist hsub
  have hgx : dictGet (dl_spec (question_limit db attempt) 0 xs) q0 = none :=
    dictGet_dl_spec_not_mem _ 0 xs q0 hq0xs
  have ha : dictGet (build_question_deadlines db attempt) q0 = some none := by
    rw [hbd1, dl_spec_append, dictGet_append]
    simp only [hgx]
    rw [dl_spec, if_pos hle, dictGet_cons, if_pos (by simp)]
  have hd : ∀ t : Int,
      past_deadline (build_question_deadlines db attempt) q0 t = false := by
    intro t
    rw [past_deadline, ha]
    rfl
  by_cases hempty : xs ++ ys = []
  · obtain ⟨hxs, hys⟩ := List.append_eq_nil.mp hempty
    subst hxs; subst hys
    refine ⟨ha, ?_, ?_, hd⟩
    · intro y hy
      exact absurd hy (List.not_mem_nil y)
    · have hL : build_question_deadlines db attempt = [(q0, none)] := by
        rw [hbd1]
        simp only [List.nil_append]
        rw [dl_spec, if_pos hle]
        rfl
      have hR : build_question_deadlines db
          { attempt with question_ids := some (([] : List String) ++ []) }
            = [] := by
        rw [build_question_deadlines,
          if_pos (show ¬ listTruthy (some (([] : List String) ++ [])) = true
            by decide)]
      rw [hL, hR]
      rfl
  · have hbd2 : build_question_deadlines db
        { attempt with question_ids := some (xs ++ ys) }
          = dl_spec (question_limit db attempt) 0 (xs ++ ys) := by
      rw [build_question_deadlines_eq_dl_spec db
        { attempt with question_ids := some (xs ++ ys) } _ rfl hempty hnd2]
      exact dl_spec_congr _ _ 0 _ (fun q hqm =>
        limit_lookup_eq db { attempt with question_ids := some (xs ++ ys) } _
          rfl hempty hnd2 q hqm)
    refine ⟨ha, ?_, ?_, hd⟩
    · intro y hy
      have hney : q0 ≠ y := by
        rintro rfl
        rcases List.mem_append.mp hy with h | h
        exacts [hq0xs h, hq0ys h]
      rw [hbd1, hbd2, dl_spec_append, dl_spec_append, dictGet_append,
        dictGet_append]
      cases hcase : dictGet (dl_spec (question_limit db attempt) 0 xs) y with
      | some v => rfl
      | none =>
        show dictGet (dl_spec (question_limit db attempt)
            (dl_after (question_limit db attempt) 0 xs) (q0 :: ys)) y
          = dictGet (dl_spec (question_limit db attempt)
              (dl_after (question_limit db attempt) 0 xs) ys) y
        rw [dl_spec, if_pos hle, dictGet_cons, if_neg (by simpa using hney)]
    · rw [hbd1, hbd2, dl_spec_append, dl_spec_append, dl_spec, if_pos hle]
      exact total_allowed_drop_none _ _ q0

/-- Witness for C10 at the zero-limit fixture: the single-question timed
attempt over the explicitly-0-limit bank question gets the deadline `None`
and its answers are never flagged late, even at elapsed time 999999. -/
theorem C10_zero_limit_no_deadline_witness :
    dictGet (build_question_deadlines fixture_db_zero fixture_attempt_zero)
        fixture_q0.id = some none
    ∧ past_deadline (build_question_deadlines fixture_db_zero
        fixture_attempt_zero) fixture_q0.id 999999 = false := by
  have h := C10_zero_limit_no_deadline fixture_db_zero fixture_attempt_zero
    [] [] fixture_q0.id fixture_q0 (by decide) rfl (by decide) (by decide)
    (by decide) (by decide) rfl
  exact ⟨h.1, h.2.2.2 999999⟩

end PPS
